import Mathlib

/-!
# Verification of the territorial simulation engine

Shallow embedding of the tick-driven territorial-conquest simulation
(`territorial/models.py`, `territorial/services/game.py`,
`territorial/consumers.py`).

Modelling conventions:
* Grid cells are signed integer labels (`0` unclaimed, `-1` water,
  `-2` mountain, positive = actor id), represented as `List (List Int)`.
  The source stores these labels in an unsigned 32-bit numpy array; the
  specification (design note on the grid type) fixes the signed-label
  reading as the semantic model, which we follow.
* Python floats are modelled as rationals (`Rat`); bit-exact float
  reproducibility is an explicit non-goal of the specification.
  The Python `int(...)` conversion truncates toward zero (`pyInt`).
* Python `for x in lst:` loops that mutate `lst` while iterating are
  modelled index-faithfully: the iterator keeps its numeric position, so
  removing the current element skips the following one.  Each loop is
  written with an explicit fuel argument equal to the initial list
  length, which dominates the number of iterations of the Python loop.
* `Game.id_squares_map` is the permanent id-to-square store (`store`);
  `Game.state.squares` is the live registry, modelled as the list of ids
  (`alive`) since Python aliases one mutable object from both places.
  `kill_square` removes a square from the registry but never from the
  id map, and field mutations act on the shared object, i.e. the store.
* Visual data (color grid, square colors, names) and randomness sources
  are not relevant to any claim and are omitted; random choices are
  surfaced as explicit index parameters.
-/

/-- Python `int(...)` on a rational: truncation toward zero. -/
def pyInt (q : Rat) : Int := q.num.tdiv q.den

/-- The grid of cell labels, row-major (`grid[y][x]`). -/
abbrev Grid := List (List Int)

/-- Number of rows (`grid.shape[0]`). -/
def gridH (g : Grid) : Nat := g.length

/-- Number of columns (`grid.shape[1]`, rectangular grids). -/
def gridW (g : Grid) : Nat := (g.headD []).length

/-- Read a cell; out-of-range reads default to `0` (all reads in the
translated code are bounds-checked before use). -/
def getCell (g : Grid) (p : Int × Int) : Int :=
  (g.getD p.1.toNat []).getD p.2.toNat 0

/-- `0 <= y < H and 0 <= x < W`, the bounds test of `get_next_pixels`. -/
def inBoundsP (g : Grid) (p : Int × Int) : Bool :=
  0 ≤ p.1 && p.1 < (gridH g : Int) && 0 ≤ p.2 && p.2 < (gridW g : Int)

/-- Write one cell (callers always pass non-negative in-range indices). -/
def setCell (g : Grid) (p : Int × Int) (v : Int) : Grid :=
  g.set p.1.toNat ((g.getD p.1.toNat []).set p.2.toNat v)

/-- Write a list of cells (`grid[pixels[:,0], pixels[:,1]] = v`). -/
def setCells (g : Grid) (ps : List (Int × Int)) (v : Int) : Grid :=
  ps.foldl (fun acc p => setCell acc p v) g

/-- `np.count_nonzero(grid == id)`: number of cells labeled `id`. -/
def countGrid (g : Grid) (id : Int) : Nat :=
  (g.map (fun row => row.count id)).sum

/-- Value lookup in a per-cell rational map (traversability, livability). -/
def ratAt (m : List (List Rat)) (p : Int × Int) : Rat :=
  (m.getD p.1.toNat []).getD p.2.toNat 0

/-- `list(range(lo, hi))` over integers. -/
def intRange (lo hi : Int) : List Int :=
  (List.range (hi - lo).toNat).map (fun k => lo + (k : Int))

/-- `territorial.models.Square`, restricted to the simulation fields
(visual fields and the spawn coordinates carry no tick semantics). -/
structure SquareR where
  id : Int
  resources : Int := 1000
  base_interest_rate : Rat := 1 / 100
  max_resources_multiplier : Int := 100
  area : Int := 1
  average_land_value : Rat := 1
  center_of_mass : Rat × Rat := (0, 0)
  bonus_interval : Int := 50
  update_counter : Int := 0
  deriving DecidableEq, Repr

/-- `Square.max_resources`:
`max(int(int(area * avg_land_value) * multiplier), 2000)`. -/
def maxResources (s : SquareR) : Int :=
  max (pyInt ((s.area : Rat) * s.average_land_value) * s.max_resources_multiplier) 2000

/-- `Square.interest_rate`:
`base_rate * max(1 - (resources / max_resources) ** 2, 0)`. -/
def interestRate (s : SquareR) : Rat :=
  s.base_interest_rate * max (1 - ((s.resources : Rat) / (maxResources s : Rat)) ^ 2) 0

/-- `Square.update_resources`: compound interest plus one, clamped; every
`bonus_interval`-th call adds the land-value bonus, clamped again. -/
def updateResources (s : SquareR) : SquareR :=
  let r1 := min (pyInt ((s.resources : Rat) * (1 + interestRate s) + 1)) (maxResources s)
  let c := s.update_counter + 1
  let r2 :=
    if c % s.bonus_interval = 0 then
      min (pyInt ((r1 : Rat) + (pyInt ((s.area : Rat) * s.average_land_value) : Rat) / 2))
        (maxResources s)
    else r1
  { s with resources := r2, update_counter := c }

/-- `territorial.models.AttackMovement` (data fields).  A `border_pixels`
value of `None` is modelled as `[]`; the code always assigns a frontier
before reading it. -/
structure MovementR where
  source : Int
  target : Int
  investment : Int
  border_pixels : List (Int × Int) := []
  is_started : Bool := false
  deriving DecidableEq, Repr

/-- `territorial.models.Boat` (color omitted). -/
structure BoatR where
  source : Int
  investment : Int
  pos : Rat × Rat
  speed : Rat × Rat
  deriving DecidableEq, Repr

/-- The shared world state of `Game`.  `store` is `id_squares_map` (the
id-to-object map, never pruned); `alive` is `state.squares` as the list
of ids of the aliased square objects; `trav`/`liv` are the immutable
`WorldMap.traversability_map` / `livability_map`. -/
structure GameS where
  width : Nat
  height : Nat
  grid : Grid
  store : List SquareR
  alive : List Int
  movements : List MovementR
  boats : List BoatR
  max_area : Int
  trav : List (List Rat)
  liv : List (List Rat)
  deriving DecidableEq, Repr

/-- `Game.get_square_from_id`: dictionary lookup in `id_squares_map`. -/
def getSquareFromId (st : GameS) (id : Int) : Option SquareR :=
  st.store.find? (fun s => s.id = id)

/-- Mutate the square object with the given id (Python mutates the one
object aliased by the map and the live list). -/
def updStoreSquare (store : List SquareR) (id : Int) (f : SquareR → SquareR) :
    List SquareR :=
  store.map (fun s => if s.id = id then f s else s)

/-- `square.resources += v` through the id map. -/
def addResources (store : List SquareR) (id : Int) (v : Int) : List SquareR :=
  updStoreSquare store id (fun s => { s with resources := s.resources + v })

/-- `square.resources -= v` through the id map. -/
def subResources (store : List SquareR) (id : Int) (v : Int) : List SquareR :=
  updStoreSquare store id (fun s => { s with resources := s.resources - v })

/-- All coordinates of the grid, row-major. -/
def allCells (g : Grid) : List (Int × Int) :=
  (intRange 0 (gridH g : Int)).flatMap (fun y =>
    (intRange 0 (gridW g : Int)).map (fun x => (y, x)))

/-- Is some 4-neighbor of `p` labeled `own`?  This is the
`convolve2d(own_mask, [[0,1,0],[1,0,1],[0,1,0]], boundary="fill") > 0`
test of `find_start_pixels` / `find_coastline` (out-of-range neighbors
contribute the fill value 0). -/
def hasOwnNeighbor (g : Grid) (own : Int) (p : Int × Int) : Bool :=
  [(p.1 - 1, p.2), (p.1 + 1, p.2), (p.1, p.2 - 1), (p.1, p.2 + 1)].any
    (fun q => inBoundsP g q && getCell g q = own)

/-- Cells labeled `lab` that are 4-adjacent to a cell labeled `own`
(shared kernel of `AttackMovement.find_start_pixels` and
`Boat.find_coastline`, whose bodies are duplicates in the source). -/
def adjacentLabeled (g : Grid) (lab own : Int) : List (Int × Int) :=
  (allCells g).filter (fun p => getCell g p = lab && hasOwnNeighbor g own p)

/-- `AttackMovement.find_start_pixels`. -/
def findStartPixels (m : MovementR) (g : Grid) : List (Int × Int) :=
  adjacentLabeled g m.target m.source

/-- `AttackMovement.start`. -/
def startMovement (m : MovementR) (g : Grid) : MovementR :=
  { m with border_pixels := findStartPixels m g, is_started := true }

/-- `AttackMovement.get_next_pixels`: border pixels plus the four axis
offsets, deduplicated, clipped to the grid, and restricted to cells
still labeled `target`.  (`np.unique` also sorts; only the set of rows
is semantically relevant and deduplication preserves it.) -/
def getNextPixels (m : MovementR) (g : Grid) : List (Int × Int) :=
  let offsets : List (Int × Int) := [(0, 0), (-1, 0), (1, 0), (0, -1), (0, 1)]
  let bordering := (offsets.flatMap
    (fun o => m.border_pixels.map (fun p => (p.1 + o.1, p.2 + o.2)))).dedup
  let valid := bordering.filter (fun p => inBoundsP g p)
  valid.filter (fun p => getCell g p = m.target)

/-- Mean traversability over the captured pixels
(`np.mean(traversability_map[next_pixels])`). -/
def meanTrav (trav : List (List Rat)) (ps : List (Int × Int)) : Rat :=
  (ps.map (fun p => ratAt trav p)).sum / (ps.length : Rat)

/-- `AttackMovement.get_next_pixels_costs`.  Returns
`(source_cost, target_cost)`; `target = none` is the killed-or-neutral
branch.  Python `//` is floor division (`Int.fdiv`). -/
def getNextPixelsCosts (m : MovementR) (nextPixels : List (Int × Int))
    (target : Option SquareR) (trav : List (List Rat)) : Int × Int :=
  let numPixels : Int := nextPixels.length
  let tScore := meanTrav trav nextPixels
  match target with
  | none => (pyInt ((numPixels : Rat) * (1 + (1 - tScore))), numPixels)
  | some t =>
    let baseCost := ((numPixels : Rat) * ((t.resources : Rat) / (t.area : Rat)))
      * (1 + (1 - tScore))
    let resourceRatio := (t.resources : Rat) / ((maxResources t : Rat) + 1)
    let costMultiplier := 1 + resourceRatio
    let sourceCost0 := pyInt (2 * baseCost * costMultiplier)
    let targetCost0 := pyInt (baseCost * costMultiplier)
    let sourceCost1 := min sourceCost0 m.investment
    let targetCost1 := min targetCost0 t.resources
    let balanced :=
      if sourceCost1 < 2 * targetCost1 then (sourceCost1, sourceCost1.fdiv 2)
      else if sourceCost1 > 2 * targetCost1 then (2 * targetCost1, targetCost1)
      else (sourceCost1, targetCost1)
    (if balanced.1 < numPixels then numPixels else balanced.1, balanced.2)

/-- `AttackMovement.from_boat`: a one-pixel started frontier at the
boat's truncated position. -/
def movementFromBoat (b : BoatR) (target : Int) : MovementR :=
  { source := b.source, target := target, investment := b.investment,
    border_pixels := [(pyInt b.pos.1, pyInt b.pos.2)], is_started := true }

/-- `Game.capture_pixels` (grid part; the color grid is visual only). -/
def capturePixels (g : Grid) (pixels : List (Int × Int)) (id : Int) : Grid :=
  setCells g pixels id

/-- `Game.handle_movement_collisions`.  Scans the active list; merges a
same-direction movement, cancels against an opposite one (appending the
survivor / removing the exhausted one), otherwise appends the new
movement at the end. -/
def handleMovementCollisions (ms : List MovementR) (nm : MovementR) :
    List MovementR :=
  match ms with
  | [] => [nm]
  | m :: rest =>
    if m.source = nm.source ∧ m.target = nm.target then
      { m with investment := m.investment + nm.investment } :: rest
    else if m.source = nm.target ∧ m.target = nm.source then
      let minInvestment := min nm.investment m.investment
      let nm2 := { nm with investment := nm.investment - minInvestment }
      let m2 := { m with investment := m.investment - minInvestment }
      let base := if m2.investment ≤ 0 then rest else m2 :: rest
      if nm2.investment > 0 then base ++ [nm2] else base
    else m :: handleMovementCollisions rest nm

/-- `Game._update_attack_movement` for the movement at index `i` of the
active list (whose value is `m`).  Python mutates the movement object in
place (`List.set i`) and `list.remove` deletes the first equal element
(`List.erase`). -/
def updateAttackMovement (st : GameS) (i : Nat) (m : MovementR) : GameS :=
  match getSquareFromId st m.source with
  | none => st
  | some sq =>
    let target := getSquareFromId st m.target
    let nextPixels := getNextPixels m st.grid
    if nextPixels.isEmpty then
      { st with store := addResources st.store m.source m.investment,
                movements := st.movements.erase m }
    else
      let grid1 := capturePixels st.grid nextPixels sq.id
      let m2 := { m with border_pixels := nextPixels }
      let costs := getNextPixelsCosts m2 nextPixels target st.trav
      let m3 := { m2 with investment := m2.investment - costs.1 }
      let movements1 := st.movements.set i m3
      let store1 :=
        match target with
        | some _ => subResources st.store m.target costs.2
        | none => st.store
      let st1 := { st with grid := grid1, store := store1, movements := movements1 }
      if m3.investment ≤ 0 then { st1 with movements := movements1.erase m3 }
      else st1

/-- The `for attack_movement in self.state.attack_movements:` loop of
`Game.update_attack_movements`.  The Python iterator keeps a numeric
cursor while the body may remove the current element, so the element
after a removed one is skipped; `fuel` bounds the iteration count and
`update_attack_movements` supplies the initial list length, which the
cursor reaches before fuel runs out. -/
def uamLoop : Nat → Nat → GameS → GameS
  | 0, _, st => st
  | fuel + 1, i, st =>
    if h : i < st.movements.length then
      let m := st.movements.get ⟨i, h⟩
      let m1 := if m.is_started then m else startMovement m st.grid
      let st1 := { st with movements := st.movements.set i m1 }
      uamLoop fuel (i + 1) (updateAttackMovement st1 i m1)
    else st

/-- `Game.update_attack_movements`. -/
def updateAttackMovements (st : GameS) : GameS :=
  uamLoop st.movements.length 0 st

/-- `grid[grid == id] = 0` (the grid part of `Game.kill_square`). -/
def zeroOutId (g : Grid) (id : Int) : Grid :=
  g.map (fun row => row.map (fun c => if c = id then 0 else c))

/-- Rewrite in-flight movements that target the killed id to target `0`
(the movement part of `Game.kill_square`). -/
def retargetMovements (ms : List MovementR) (id : Int) : List MovementR :=
  ms.map (fun m => if m.target = id then { m with target := 0 } else m)

/-- `Game.kill_square`: remove the square from the live registry, zero
its grid cells, and rewrite movements targeting it.  The id map
(`store`) is untouched by the source. -/
def killSquare (st : GameS) (id : Int) : GameS :=
  { st with alive := st.alive.erase id,
            grid := zeroOutId st.grid id,
            movements := retargetMovements st.movements id }

/-- Livability values of the cells currently labeled `id`
(`livability_map[grid == id]`). -/
def ownLivValues (g : Grid) (liv : List (List Rat)) (id : Int) : List Rat :=
  (g.zip liv).flatMap (fun rows =>
    (rows.1.zip rows.2).filterMap (fun cv => if cv.1 = id then some cv.2 else none))

/-- `np.mean(livability_map[grid == id])` (only evaluated by the source
for squares with at least one cell). -/
def meanLiv (g : Grid) (liv : List (List Rat)) (id : Int) : Rat :=
  (ownLivValues g liv id).sum / ((ownLivValues g liv id).length : Rat)

/-- One surviving square of `update_square_areas`: store the histogram
area and the mean livability of its cells. -/
def setSquareStats (st : GameS) (id : Int) (area : Nat) : GameS :=
  { st with store := updStoreSquare st.store id (fun s =>
      { s with area := (area : Int),
               average_land_value := meanLiv st.grid st.liv id }) }

/-- The `for square in self.state.squares:` loop of
`Game.update_square_areas`; `counts` is the `value_counts` histogram
taken from the grid once at entry (an id is absent from the Python dict
exactly when its count is 0).  `kill_square` removes the current element
of the list being iterated, so the Python cursor then skips the next
square. -/
def usaLoop (counts : Int → Nat) : Nat → Nat → GameS → GameS
  | 0, _, st => st
  | fuel + 1, i, st =>
    if h : i < st.alive.length then
      let id := st.alive.get ⟨i, h⟩
      let n := counts id
      if n = 0 then usaLoop counts fuel (i + 1) (killSquare st id)
      else
        let ma := max st.max_area (n : Int)
        let st1 := { st with max_area := ma }
        if (n : Int) < 10 ∨ (n : Rat) < (ma : Rat) / 100 then
          usaLoop counts fuel (i + 1) (killSquare st1 id)
        else usaLoop counts fuel (i + 1) (setSquareStats st1 id n)
    else st

/-- `Game.update_square_areas`. -/
def updateSquareAreas (st : GameS) : GameS :=
  usaLoop (fun id => countGrid st.grid id) st.alive.length 0 st

/-- `Boat.find_coastline`: water cells (`-1`) 4-adjacent to a cell of
the square. -/
def findCoastline (squareId : Int) (g : Grid) : List (Int × Int) :=
  adjacentLabeled g (-1) squareId

/-- `Boat.from_square`.  The investment is deducted up front; the random
coastline pick is surfaced as `choiceIdx`; the speed direction involves
a real square root (`magnitude ** 0.5`), which no claim depends on, so
the normalized scaled speed is surfaced as the oracle `speedOf` applied
to the unnormalized direction (the `magnitude == 0` test is equivalent
to the squared magnitude being 0). -/
def boatFromSquare (sq : SquareR) (investment : Int) (g : Grid)
    (choiceIdx : Nat) (speedOf : Rat → Rat → Rat × Rat) :
    SquareR × Option BoatR :=
  let sq1 := { sq with resources := sq.resources - investment }
  let coastline := findCoastline sq.id g
  if coastline.isEmpty then (sq1, none)
  else
    let target := coastline.getD (choiceIdx % coastline.length) (0, 0)
    let directionY := (target.1 : Rat) - sq.center_of_mass.1
    let directionX := (target.2 : Rat) - sq.center_of_mass.2
    if directionY ^ 2 + directionX ^ 2 = 0 then (sq1, none)
    else
      (sq1, some { source := sq.id, investment := investment,
                   pos := ((target.1 : Rat), (target.2 : Rat)),
                   speed := speedOf directionY directionX })

/-- The `for boat in self.state.boats:` loop of `Game.update_boats`
(same mutation-during-iteration semantics as `uamLoop`).  Boat position
updates mutate the object in the list; horizontal exits reset `x` to an
edge; vertical exits remove the boat with no refund; landing on water
keeps sailing; landing on own territory refunds through the id map;
landing elsewhere despawns into an attack movement.  (The `ValueError`
branch guards NaN float positions, which have no rational model.) -/
def ubLoop : Nat → Nat → GameS → GameS
  | 0, _, st => st
  | fuel + 1, i, st =>
    if h : i < st.boats.length then
      let b := st.boats.get ⟨i, h⟩
      let b1 := { b with pos := (b.pos.1 + b.speed.1, b.pos.2 + b.speed.2) }
      let wrappedX : Rat :=
        if pyInt b1.pos.2 < 0 then ((st.width : Rat) - 1)
        else if (st.width : Int) ≤ pyInt b1.pos.2 then 0
        else b1.pos.2
      let b2 := { b1 with pos := (b1.pos.1, wrappedX) }
      let boats1 := st.boats.set i b2
      if b2.pos.1 < 0 ∨ (st.height : Rat) ≤ b2.pos.1 then
        ubLoop fuel (i + 1) { st with boats := boats1.erase b2 }
      else
        let collision := getCell st.grid (pyInt b2.pos.1, pyInt b2.pos.2)
        if collision = -1 then ubLoop fuel (i + 1) { st with boats := boats1 }
        else if collision = b2.source then
          let st1 := { st with boats := boats1.erase b2,
                               store := addResources st.store b2.source b2.investment }
          ubLoop fuel (i + 1) st1
        else
          let nm := movementFromBoat b2 collision
          let st1 := { st with boats := boats1.erase b2,
                               movements := handleMovementCollisions st.movements nm }
          ubLoop fuel (i + 1) st1
    else st

/-- `Game.update_boats`. -/
def updateBoats (st : GameS) : GameS :=
  ubLoop st.boats.length 0 st

/-- The grid-stamping part of `Game.create_random_square`: write the
spawn block `[max(0, sy - 5), min(H, sy + 4)) x [max(0, sx - 5),
min(W, sx + 4))`, overwriting every cell whose label is not `-1`. -/
def createRandomSquareStamp (g : Grid) (squareId sy sx : Int) : Grid :=
  let ys := intRange (max 0 (sy - 5)) (min (gridH g : Int) (sy + 4))
  let xs := intRange (max 0 (sx - 5)) (min (gridW g : Int) (sx + 4))
  ys.foldl (fun acc y =>
    xs.foldl (fun acc2 x =>
      if getCell acc2 (y, x) ≠ -1 then setCell acc2 (y, x) squareId else acc2) acc) g

/-- `grid[::k, ::k]`: keep every `k`-th row and column. -/
def strideSample (k : Nat) (g : Grid) : Grid :=
  ((List.range g.length).filterMap (fun y =>
    if y % k = 0 then g.get? y else none)).map (fun row =>
      (List.range row.length).filterMap (fun x =>
        if x % k = 0 then row.get? x else none))

/-- Sort an adjacency pair (`np.sort(pairs, axis=1)`). -/
def sortPair (p : Int × Int) : Int × Int :=
  if p.1 ≤ p.2 then p else (p.2, p.1)

/-- Pairs produced by the `up` kernel of `find_all_possible_targets`:
`convolve2d` with `[[0,1,0],[0,0,0],[0,0,0]]` places the cell one row
below at each position, and the mask keeps positions whose partner is
nonzero (boundary fill 0 never passes the mask). -/
def vertAdjPairs (g : Grid) : List (Int × Int) :=
  (List.range g.length).flatMap (fun y =>
    match g.get? y, g.get? (y + 1) with
    | some r1, some r2 =>
      (List.range (min r1.length r2.length)).filterMap (fun x =>
        match r1.get? x, r2.get? x with
        | some a, some b => if b ≠ 0 then some (a, b) else none
        | _, _ => none)
    | _, _ => [])

/-- Pairs produced by the `right` kernel: the partner is the cell one
column to the left, i.e. each horizontally adjacent nonzero pair. -/
def horizAdjPairs (g : Grid) : List (Int × Int) :=
  (List.range g.length).flatMap (fun y =>
    match g.get? y with
    | some r =>
      (List.range r.length).filterMap (fun x =>
        match r.get? x, r.get? (x + 1) with
        | some b, some a => if b ≠ 0 then some (a, b) else none
        | _, _ => none)
    | none => [])

/-- `Game.find_all_possible_targets`: adjacency pairs of the stride-2
downsampled grid, sorted per pair and deduplicated (`np.unique` also
sorts the list of pairs; only the set matters), then pairs containing
`-2` in either slot are discarded. -/
def findAllPossibleTargets (g : Grid) : List (Int × Int) :=
  let grid2 := strideSample 2 g
  let pairs := ((vertAdjPairs grid2 ++ horizAdjPairs grid2).map sortPair).dedup
  pairs.filter (fun p => p.1 ≠ -2 && p.2 ≠ -2)

/-- `Game.update_neighbors` stores the pair set on the game object. -/
def updateNeighbors (st : GameS) : List (Int × Int) :=
  findAllPossibleTargets st.grid

/-- `SquareConsumer.update_loop` (the scheduler task driving one tick
method): `while True: try: run(); sleep(period) except: log; break`.
An entry of the trace is `true` when that invocation raises.  The
result counts the invocations actually performed: the loop breaks at
the first raising invocation. -/
def updateLoopExec : List Bool → Nat
  | [] => 0
  | raises :: rest => if raises then 1 else 1 + updateLoopExec rest

/-- The broadcast tasks (`send_grid_update`, `send_square_info`,
`send_boats`): the `try/except` logs and falls through to the sleep, so
every scheduled invocation is performed. -/
def sendLoopExec : List Bool → Nat
  | [] => 0
  | _ :: rest => 1 + sendLoopExec rest

/-- Empty world scaffold for concrete scenarios. -/
def emptyGameS : GameS :=
  { width := 0, height := 0, grid := [], store := [], alive := [],
    movements := [], boats := [], max_area := 1, trav := [], liv := [] }

/-- Scenario for `update_square_areas`: square 1 owns no cells, square 2
owns all twelve cells of a 1 by 12 grid but its stored `area` is 1. -/
def stC4 : GameS :=
  { emptyGameS with width := 12, height := 1,
                    grid := [[2, 2, 2, 2, 2, 2, 2, 2, 2, 2, 2, 2]],
                    store := [{ id := 1 }, { id := 2 }], alive := [1, 2] }

/-- Scenario for `update_attack_movements`: square 1 was killed (absent
from the live registry `alive`, still present in the id map `store`) but
its started movement against the live square 2 is still in flight. -/
def stC10 : GameS :=
  { emptyGameS with width := 2, height := 1, grid := [[1, 2]],
                    store := [{ id := 1, resources := 500 }, { id := 2, resources := 100 }],
                    alive := [2],
                    movements := [{ source := 1, target := 2, investment := 1000,
                                    border_pixels := [(0, 0)], is_started := true }],
                    trav := [[1, 1]], liv := [[1, 1]] }

/-- Scenario for `update_boats`: an all-water 2 by 4 world with a boat
at `x = 3.5` moving right with speed `(0, 2)`, about to cross the right
edge. -/
def stC7 : GameS :=
  { emptyGameS with width := 4, height := 2,
                    grid := [[-1, -1, -1, -1], [-1, -1, -1, -1]],
                    boats := [{ source := 1, investment := 100,
                                pos := (1 / 2, 7 / 2), speed := (0, 2) }] }

/-- Scenario for the C8 witness: one live square owning no cells. -/
def stC8 : GameS :=
  { emptyGameS with width := 1, height := 1, grid := [[0]],
                    store := [{ id := 1 }], alive := [1] }

/-- Movement of the C10 witness scenario. -/
def mvC10W : MovementR :=
  { source := 7, target := 0, investment := 10, border_pixels := [(0, 0)], is_started := true }

/-- Scenario for the C10 witness: one started movement whose source id 7
was never in the id map. -/
def stC10W : GameS :=
  { emptyGameS with width := 1, height := 1, grid := [[0]], movements := [mvC10W] }

/-- Movement of the C2 empty-frontier scenario. -/
def mvC2a : MovementR :=
  { source := 1, target := 2, investment := 30, border_pixels := [(0, 0)], is_started := true }

/-- Scenario for the C2 witness, empty frontier: the movement targets id
2 but no cell is labeled 2, so its next frontier is empty. -/
def stC2a : GameS :=
  { emptyGameS with width := 1, height := 1, grid := [[1]],
                    store := [{ id := 1, resources := 50 }], movements := [mvC2a] }

/-- Boat leaving the grid vertically (moving down from `y = 1.5` with
speed `(1, 0)` in a height-2 world). -/
def bC2v : BoatR := { source := 1, investment := 5, pos := (3 / 2, 1 / 2), speed := (1, 0) }

/-- Scenario for the C2 witness, vertical exit. -/
def stC2v : GameS :=
  { emptyGameS with width := 2, height := 2, grid := [[-1, -1], [-1, -1]],
                    boats := [bC2v] }

/-- Boat landing on its own territory (moving right onto the cell
labeled 1). -/
def bC2h : BoatR := { source := 1, investment := 7, pos := (1 / 2, 1 / 2), speed := (0, 1) }

/-- Scenario for the C2 witness, own-territory landing. -/
def stC2h : GameS :=
  { emptyGameS with width := 2, height := 1, grid := [[-1, 1]],
                    store := [{ id := 1, resources := 10 }], boats := [bC2h] }

/-- Boat crossing the left edge (moving left from `x = 0.5` with speed
`(0, -2)` over water). -/
def bC7l : BoatR := { source := 1, investment := 3, pos := (1 / 2, 1 / 2), speed := (0, -2) }

/-- Scenario for the C7 witness, left-edge crossing. -/
def stC7l : GameS :=
  { emptyGameS with width := 4, height := 2,
                    grid := [[-1, -1, -1, -1], [-1, -1, -1, -1]], boats := [bC7l] }

/-- Boat of the `stC7` right-edge scenario. -/
def bC7r : BoatR := { source := 1, investment := 100, pos := (1 / 2, 7 / 2), speed := (0, 2) }

/-- Started movement of the C1 witness scenario: square 1 attacks the
unclaimed cell at `(0, 0)`. -/
def mvC1 : MovementR :=
  { source := 1, target := 0, investment := 40, border_pixels := [(0, 0)], is_started := true }

/-- Scenario for the C1 witness: a 3 by 1 world with an unclaimed cell,
a cell of square 1 and a water cell, one started attack movement and no
boats. -/
def stC1 : GameS :=
  { emptyGameS with width := 3, height := 1, grid := [[0, 1, -1]],
                    store := [{ id := 1, resources := 200 }], alive := [1],
                    movements := [mvC1],
                    trav := [[1, 1, 1]], liv := [[1, 1, 1]] }

/-! ## Helper lemmas -/

theorem pyInt_eq_floor (q : Rat) (h : 0 ≤ q) : pyInt q = ⌊q⌋ := by
  rw [Rat.floor_def]
  exact Int.tdiv_eq_ediv (Rat.num_nonneg.mpr h) (Int.natCast_nonneg _)

theorem floor_half_floor (y : Rat) : ⌊((⌊y⌋ : Int) : Rat) / 2⌋ = ⌊y / 2⌋ := by
  apply le_antisymm
  · apply Int.le_floor.mpr
    have h1 : ((⌊((⌊y⌋ : Int) : Rat) / 2⌋ : Rat)) ≤ ((⌊y⌋ : Int) : Rat) / 2 :=
      Int.floor_le _
    have h2 : ((⌊y⌋ : Int) : Rat) ≤ y := Int.floor_le y
    linarith
  · apply Int.le_floor.mpr
    have h2 : (2 * ⌊y / 2⌋ : Int) ≤ ⌊y⌋ := by
      apply Int.le_floor.mpr
      have h1 : ((⌊y / 2⌋ : Int) : Rat) ≤ y / 2 := Int.floor_le _
      push_cast
      linarith
    have h3 : ((2 * ⌊y / 2⌋ : Int) : Rat) ≤ ((⌊y⌋ : Int) : Rat) := by
      exact_mod_cast h2
    push_cast at h3
    linarith

/-! ## C3: behaviour of the periodic tick tasks on exceptions -/

/-- C3 counterexample: with a two-invocation schedule whose first tick
raises, the `update_loop` task performs only one invocation, so the
claim that the task still performs its next invocation after a raising
tick is false (the `except` clause ends with `break`). -/
theorem c3_failed_tick_stops_task_counterexample :
    updateLoopExec [true, false] = 1 ∧ ¬ 2 ≤ updateLoopExec [true, false] := by
  decide

/-- C3 amended: a tick task (`update_loop`) executes its leading
non-raising invocations plus the first raising one, then stops
permanently; only the broadcast send tasks perform every scheduled
invocation regardless of exceptions. -/
theorem c3_tick_loop_semantics (trace : List Bool) :
    updateLoopExec trace =
      (if trace.any (fun r => r) then
        (trace.takeWhile (fun r => ! r)).length + 1
      else trace.length) ∧
    sendLoopExec trace = trace.length := by
  induction trace with
  | nil => simp [updateLoopExec, sendLoopExec]
  | cons r rest ih =>
    cases r with
    | true =>
      refine ⟨?_, ?_⟩ <;>
        simp [updateLoopExec, sendLoopExec, List.any_cons, List.takeWhile, ih.2] <;>
        omega
    | false =>
      rcases ih with ⟨ih1, ih2⟩
      by_cases hAny : rest.any (fun r => r) <;>
        refine ⟨?_, ?_⟩ <;>
          simp [updateLoopExec, sendLoopExec, List.any_cons, List.takeWhile, hAny,
            ih1, ih2] <;>
          omega

/-! ## C4: area accounting after update_square_areas -/

/-- C4 (code bug): in `stC4`, square 1 is killed for owning no cells and
the Python iterator, advanced past the mutated list, never visits square
2: square 2 stays in the registry with stored area 1 although 12 grid
cells are labeled 2 right after the invocation. -/
theorem c4_skipped_square_stale_area :
    (updateSquareAreas stC4).alive = [2] ∧
    (getSquareFromId (updateSquareAreas stC4) 2).map (fun s => s.area) = some 1 ∧
    countGrid (updateSquareAreas stC4).grid 2 = 12 ∧ (1 : Int) ≠ 12 := by
  refine ⟨by with_unfolding_all rfl, by with_unfolding_all rfl,
    by with_unfolding_all rfl, by decide⟩

/-! ## C5: attack cost computation with an absent target -/

/-- C5 counterexample: for a single captured pixel of traversability 0
and no target actor, the code returns source cost 2 but target cost 1,
while the claim says both costs equal `n * (1 + (1 - tau)) = 2`. -/
theorem c5_none_target_cost_counterexample :
    getNextPixelsCosts { source := 1, target := 0, investment := 50 }
      [(0, 0)] none [[0]] = (2, 1) ∧ ((2 : Int), (1 : Int)) ≠ ((2 : Int), (2 : Int)) := by
  refine ⟨by with_unfolding_all rfl, by decide⟩

/-- C5 amended: when the target actor is absent, the source cost is the
truncation of `n * (1 + (1 - tau))` and the target cost is `n` itself;
no caps are applied on this branch. -/
theorem c5_none_target_costs (m : MovementR) (next : List (Int × Int))
    (trav : List (List Rat)) (h : next ≠ []) :
    getNextPixelsCosts m next none trav =
      (pyInt ((next.length : Rat) * (1 + (1 - meanTrav trav next))),
        (next.length : Int)) := rfl

/-- C5 witness. -/
theorem c5_none_target_costs_witness :
    ([((0 : Int), (0 : Int))] ≠ []) ∧
    getNextPixelsCosts { source := 1, target := 0, investment := 50 }
        [(0, 0)] none [[0]] =
      (pyInt (((1 : Nat) : Rat) * (1 + (1 - meanTrav [[0]] [(0, 0)]))), (1 : Int)) :=
  ⟨by decide, c5_none_target_costs _ [(0, 0)] [[0]] (by decide)⟩

/-! ## C6: the resource tick formula -/

/-- C6: every call to `update_resources` sets
`resources` to `min(max_resources, floor(resources * (1 + interest_rate)) + 1)`
and, on every `bonus_interval`-th call, additionally adds
`floor(area * average_land_value / 2)` clamped to `max_resources` again
(stated for the non-negative resource and land values the simulation
maintains). -/
theorem c6_resource_tick (s : SquareR) (hr : 0 ≤ s.resources)
    (hb : 0 ≤ s.base_interest_rate)
    (ha : 0 ≤ (s.area : Rat) * s.average_land_value) :
    (updateResources s).update_counter = s.update_counter + 1 ∧
    (updateResources s).resources =
      (if (s.update_counter + 1) % s.bonus_interval = 0 then
        min (maxResources s)
          (min (maxResources s) (⌊(s.resources : Rat) * (1 + interestRate s)⌋ + 1)
            + ⌊(s.area : Rat) * s.average_land_value / 2⌋)
      else min (maxResources s) (⌊(s.resources : Rat) * (1 + interestRate s)⌋ + 1)) := by
  have hIR : 0 ≤ interestRate s := mul_nonneg hb (le_max_right _ _)
  have hx : 0 ≤ (s.resources : Rat) * (1 + interestRate s) :=
    mul_nonneg (by exact_mod_cast hr) (by linarith)
  have hpy1 : pyInt ((s.resources : Rat) * (1 + interestRate s) + 1)
      = ⌊(s.resources : Rat) * (1 + interestRate s)⌋ + 1 := by
    rw [pyInt_eq_floor _ (by linarith), Int.floor_add_one]
  have hM : (0 : Int) ≤ maxResources s :=
    le_trans (by norm_num) (le_max_right _ 2000)
  have hfl : (0 : Int) ≤ ⌊(s.resources : Rat) * (1 + interestRate s)⌋ :=
    Int.floor_nonneg.mpr hx
  have hr1 : (0 : Int) ≤ min (⌊(s.resources : Rat) * (1 + interestRate s)⌋ + 1)
      (maxResources s) := le_min (by omega) hM
  have hK : pyInt ((s.area : Rat) * s.average_land_value)
      = ⌊(s.area : Rat) * s.average_land_value⌋ := pyInt_eq_floor _ ha
  have hKnn : (0 : Int) ≤ ⌊(s.area : Rat) * s.average_land_value⌋ :=
    Int.floor_nonneg.mpr ha
  refine ⟨rfl, ?_⟩
  show (if (s.update_counter + 1) % s.bonus_interval = 0 then
      min (pyInt ((((min (pyInt ((s.resources : Rat) * (1 + interestRate s) + 1))
        (maxResources s)) : Int) : Rat)
        + ((pyInt ((s.area : Rat) * s.average_land_value) : Int) : Rat) / 2))
        (maxResources s)
    else min (pyInt ((s.resources : Rat) * (1 + interestRate s) + 1)) (maxResources s)) = _
  rw [hpy1, hK]
  by_cases hc : (s.update_counter + 1) % s.bonus_interval = 0
  · simp only [hc, if_pos, if_true]
    set r1 : Int := min (⌊(s.resources : Rat) * (1 + interestRate s)⌋ + 1)
      (maxResources s) with hr1def
    set K : Int := ⌊(s.area : Rat) * s.average_land_value⌋ with hKdef
    have hsum : (0 : Rat) ≤ (r1 : Rat) + (K : Rat) / 2 := by
      have h1 : (0 : Rat) ≤ (r1 : Rat) := by exact_mod_cast hr1
      have h2 : (0 : Rat) ≤ (K : Rat) := by exact_mod_cast hKnn
      have h3 : (0 : Rat) ≤ (K : Rat) / 2 := by linarith
      linarith
    rw [pyInt_eq_floor _ hsum, Int.floor_int_add, floor_half_floor]
    rw [min_comm (maxResources s)
      (⌊(s.resources : Rat) * (1 + interestRate s)⌋ + 1)]
    exact min_comm _ _
  · simp only [hc, if_false]
    exact min_comm _ _

/-- C6 witness: the default square (resources 1000, rate 1/100) at its
first tick. -/
theorem c6_resource_tick_witness :
    (updateResources { id := 1 }).update_counter = 1 ∧
    (updateResources { id := 1 }).resources =
      (if ((0 : Int) + 1) % (50 : Int) = 0 then
        min (maxResources { id := 1 })
          (min (maxResources { id := 1 })
            (⌊((1000 : Int) : Rat) * (1 + interestRate { id := 1 })⌋ + 1)
            + ⌊((1 : Int) : Rat) * (1 : Rat) / 2⌋)
      else min (maxResources { id := 1 })
        (⌊((1000 : Int) : Rat) * (1 + interestRate { id := 1 })⌋ + 1)) :=
  c6_resource_tick { id := 1 } (by decide)
    (of_decide_eq_true (by with_unfolding_all rfl))
    (of_decide_eq_true (by with_unfolding_all rfl))

/-! ## C8: the elimination threshold -/

theorem killSquare_max_area (st : GameS) (id : Int) :
    (killSquare st id).max_area = st.max_area := rfl

theorem withMaxArea_max_area (st : GameS) (x : Int) :
    ({ st with max_area := x } : GameS).max_area = x := rfl

theorem killSquare_alive (st : GameS) (id : Int) :
    (killSquare st id).alive = st.alive.erase id := rfl

theorem setSquareStats_alive (st : GameS) (id : Int) (n : Nat) :
    (setSquareStats st id n).alive = st.alive := rfl

theorem usaLoop_succ (counts : Int → Nat) (fuel i : Nat) (st : GameS) :
    usaLoop counts (fuel + 1) i st =
      (if h : i < st.alive.length then
        (if counts (st.alive.get ⟨i, h⟩) = 0 then
          usaLoop counts fuel (i + 1) (killSquare st (st.alive.get ⟨i, h⟩))
        else if ((counts (st.alive.get ⟨i, h⟩) : Int) < 10 ∨
            ((counts (st.alive.get ⟨i, h⟩) : Rat) <
              ((max st.max_area (counts (st.alive.get ⟨i, h⟩) : Int) : Int) : Rat) / 100)) then
          usaLoop counts fuel (i + 1)
            (killSquare
              { st with max_area := max st.max_area (counts (st.alive.get ⟨i, h⟩) : Int) }
              (st.alive.get ⟨i, h⟩))
        else
          usaLoop counts fuel (i + 1)
            (setSquareStats
              { st with max_area := max st.max_area (counts (st.alive.get ⟨i, h⟩) : Int) }
              (st.alive.get ⟨i, h⟩) (counts (st.alive.get ⟨i, h⟩))))
      else st) := rfl

theorem usaLoop_max_area_mono (counts : Int → Nat) :
    ∀ fuel i st, st.max_area ≤ (usaLoop counts fuel i st).max_area := by
  intro fuel
  induction fuel with
  | zero => intro i st; exact le_rfl
  | succ f ih =>
    intro i st
    rw [usaLoop_succ]
    by_cases h : i < st.alive.length
    · rw [dif_pos h]
      by_cases h0 : counts (st.alive.get ⟨i, h⟩) = 0
      · rw [if_pos h0]
        exact ih (i + 1) (killSquare st (st.alive.get ⟨i, h⟩))
      · rw [if_neg h0]
        by_cases hc : ((counts (st.alive.get ⟨i, h⟩) : Int) < 10 ∨
            ((counts (st.alive.get ⟨i, h⟩) : Rat) <
              ((max st.max_area (counts (st.alive.get ⟨i, h⟩) : Int) : Int) : Rat) / 100))
        · rw [if_pos hc]
          have h2 := ih (i + 1) (killSquare
            { st with max_area := max st.max_area (counts (st.alive.get ⟨i, h⟩) : Int) }
            (st.alive.get ⟨i, h⟩))
          rw [killSquare_max_area, withMaxArea_max_area] at h2
          exact le_trans (le_max_left _ _) h2
        · rw [if_neg hc]
          have h2 := ih (i + 1) (setSquareStats
            { st with max_area := max st.max_area (counts (st.alive.get ⟨i, h⟩) : Int) }
            (st.alive.get ⟨i, h⟩) (counts (st.alive.get ⟨i, h⟩)))
          have h3 : (setSquareStats
              { st with max_area := max st.max_area (counts (st.alive.get ⟨i, h⟩) : Int) }
              (st.alive.get ⟨i, h⟩) (counts (st.alive.get ⟨i, h⟩))).max_area
              = max st.max_area (counts (st.alive.get ⟨i, h⟩) : Int) := rfl
          rw [h3] at h2
          exact le_trans (le_max_left _ _) h2
    · rw [dif_neg h]

theorem usaLoop_removed_small (counts : Int → Nat) :
    ∀ fuel i st id, st.alive.Nodup → id ∈ st.alive →
      id ∉ (usaLoop counts fuel i st).alive →
      counts id = 0 ∨ ∃ ma : Int, st.max_area ≤ ma ∧
        ma ≤ (usaLoop counts fuel i st).max_area ∧
        ((counts id : Rat)) < max 10 ((ma : Rat) / 100) := by
  intro fuel
  induction fuel with
  | zero => intro i st id _ hmem hrem; exact absurd hmem hrem
  | succ f ih =>
    intro i st id hnd hmem hrem
    rw [usaLoop_succ] at hrem ⊢
    by_cases h : i < st.alive.length
    · rw [dif_pos h] at hrem ⊢
      by_cases h0 : counts (st.alive.get ⟨i, h⟩) = 0
      · rw [if_pos h0] at hrem ⊢
        by_cases heq : st.alive.get ⟨i, h⟩ = id
        · exact Or.inl (heq ▸ h0)
        · have hmem2 : id ∈ (killSquare st (st.alive.get ⟨i, h⟩)).alive := by
            rw [killSquare_alive]
            exact (List.mem_erase_of_ne (fun hh => heq hh.symm)).mpr hmem
          have hnd2 : (killSquare st (st.alive.get ⟨i, h⟩)).alive.Nodup := by
            rw [killSquare_alive]; exact hnd.erase _
          rcases ih (i + 1) _ id hnd2 hmem2 hrem with h1 | ⟨ma, hma1, hma2, hma3⟩
          · exact Or.inl h1
          · exact Or.inr ⟨ma, le_trans (le_of_eq (killSquare_max_area st _).symm) hma1,
              hma2, hma3⟩
      · rw [if_neg h0] at hrem ⊢
        by_cases hc : ((counts (st.alive.get ⟨i, h⟩) : Int) < 10 ∨
            ((counts (st.alive.get ⟨i, h⟩) : Rat) <
              ((max st.max_area (counts (st.alive.get ⟨i, h⟩) : Int) : Int) : Rat) / 100))
        · rw [if_pos hc] at hrem ⊢
          by_cases heq : st.alive.get ⟨i, h⟩ = id
          · subst heq
            refine Or.inr ⟨max st.max_area (counts (st.alive.get ⟨i, h⟩) : Int),
              le_max_left _ _, ?_, ?_⟩
            · have h2 := usaLoop_max_area_mono counts f (i + 1) (killSquare
                { st with max_area := max st.max_area (counts (st.alive.get ⟨i, h⟩) : Int) }
                (st.alive.get ⟨i, h⟩))
              rw [killSquare_max_area, withMaxArea_max_area] at h2
              exact h2
            · rcases hc with hc1 | hc2
              · exact lt_max_iff.mpr (Or.inl (by exact_mod_cast hc1))
              · exact lt_max_iff.mpr (Or.inr hc2)
          · have hmem2 : id ∈ (killSquare
                { st with max_area := max st.max_area (counts (st.alive.get ⟨i, h⟩) : Int) }
                (st.alive.get ⟨i, h⟩)).alive := by
              rw [killSquare_alive]
              exact (List.mem_erase_of_ne (fun hh => heq hh.symm)).mpr hmem
            have hnd2 : (killSquare
                { st with max_area := max st.max_area (counts (st.alive.get ⟨i, h⟩) : Int) }
                (st.alive.get ⟨i, h⟩)).alive.Nodup := by
              rw [killSquare_alive]; exact hnd.erase _
            rcases ih (i + 1) _ id hnd2 hmem2 hrem with h1 | ⟨ma, hma1, hma2, hma3⟩
            · exact Or.inl h1
            · rw [killSquare_max_area, withMaxArea_max_area] at hma1
              exact Or.inr ⟨ma, le_trans (le_max_left _ _) hma1, hma2, hma3⟩
        · rw [if_neg hc] at hrem ⊢
          have hmem2 : id ∈ (setSquareStats
              { st with max_area := max st.max_area (counts (st.alive.get ⟨i, h⟩) : Int) }
              (st.alive.get ⟨i, h⟩) (counts (st.alive.get ⟨i, h⟩))).alive := by
            rw [setSquareStats_alive]; exact hmem
          have hnd2 : (setSquareStats
              { st with max_area := max st.max_area (counts (st.alive.get ⟨i, h⟩) : Int) }
              (st.alive.get ⟨i, h⟩) (counts (st.alive.get ⟨i, h⟩))).alive.Nodup := by
            rw [setSquareStats_alive]; exact hnd
          rcases ih (i + 1) _ id hnd2 hmem2 hrem with h1 | ⟨ma, hma1, hma2, hma3⟩
          · exact Or.inl h1
          · refine Or.inr ⟨ma, ?_, hma2, hma3⟩
            exact le_trans (le_max_left st.max_area _) hma1
    · rw [dif_neg h] at hrem; exact absurd hmem hrem

/-- C8: every actor removed by `update_square_areas` had, at the moment
of removal, a cell count of 0 or strictly below
`max(10, max_area / 100)` for a value `ma` of the running maximum area
(between the maximum at loop entry and the final one).  The cell counts
are the histogram taken at entry; kills only zero the killed id, so the
removed id's own count is unchanged until its removal.  `Nodup` states
that the live registry holds distinct ids, as built by `Game.__init__`. -/
theorem c8_elimination_threshold (st : GameS) (id : Int)
    (hnd : st.alive.Nodup) (hmem : id ∈ st.alive)
    (hrem : id ∉ (updateSquareAreas st).alive) :
    countGrid st.grid id = 0 ∨ ∃ ma : Int, st.max_area ≤ ma ∧
      ma ≤ (updateSquareAreas st).max_area ∧
      ((countGrid st.grid id : Rat)) < max 10 ((ma : Rat) / 100) :=
  usaLoop_removed_small _ _ _ st id hnd hmem hrem


/-- C8 witness: square 1 owns no cells and is removed; the theorem
applies and its conclusion holds concretely. -/
theorem c8_elimination_threshold_witness :
    stC8.alive.Nodup ∧ (1 : Int) ∈ stC8.alive ∧
    ((1 : Int) ∉ (updateSquareAreas stC8).alive) ∧
    (countGrid stC8.grid 1 = 0 ∨ ∃ ma : Int, stC8.max_area ≤ ma ∧
      ma ≤ (updateSquareAreas stC8).max_area ∧
      ((countGrid stC8.grid 1 : Rat)) < max 10 ((ma : Rat) / 100)) :=
  ⟨by decide, by decide, of_decide_eq_true (by with_unfolding_all rfl),
    c8_elimination_threshold stC8 1 (by decide) (by decide)
      (of_decide_eq_true (by with_unfolding_all rfl))⟩

/-! ## C10: movements whose source actor is gone -/

theorem set_get_self {α : Type} (l : List α) :
    ∀ (i : Nat) (h : i < l.length), l.set i (l.get ⟨i, h⟩) = l := by
  induction l with
  | nil => intro i h; simp at h
  | cons a t ih =>
    intro i h
    cases i with
    | zero => rfl
    | succ j =>
      have hj : j < t.length := by simpa using h
      show a :: t.set j ((a :: t).get ⟨j + 1, h⟩) = a :: t
      rw [show (a :: t).get ⟨j + 1, h⟩ = t.get ⟨j, hj⟩ from rfl, ih j hj]

theorem updateAttackMovement_absent (st : GameS) (i : Nat) (m : MovementR)
    (habs : getSquareFromId st m.source = none) :
    updateAttackMovement st i m = st := by
  simp [updateAttackMovement, habs]

theorem uamLoop_succ (fuel i : Nat) (st : GameS) :
    uamLoop (fuel + 1) i st =
      (if h : i < st.movements.length then
        uamLoop fuel (i + 1) (updateAttackMovement
          { st with movements := st.movements.set i
                      (if (st.movements.get ⟨i, h⟩).is_started then st.movements.get ⟨i, h⟩
                       else startMovement (st.movements.get ⟨i, h⟩) st.grid) } i
          (if (st.movements.get ⟨i, h⟩).is_started then st.movements.get ⟨i, h⟩
           else startMovement (st.movements.get ⟨i, h⟩) st.grid))
      else st) := rfl

theorem uamLoop_absent_noop :
    ∀ fuel i (st : GameS),
      (∀ m2 ∈ st.movements, m2.is_started = true) →
      (∀ m2 ∈ st.movements, getSquareFromId st m2.source = none) →
      uamLoop fuel i st = st := by
  intro fuel
  induction fuel with
  | zero => intro i st _ _; rfl
  | succ f ih =>
    intro i st hstarted habsent
    rw [uamLoop_succ]
    by_cases h : i < st.movements.length
    · rw [dif_pos h]
      have hm : st.movements.get ⟨i, h⟩ ∈ st.movements := List.get_mem _ _ h
      have hs := hstarted _ hm
      have hm1 : (if (st.movements.get ⟨i, h⟩).is_started then st.movements.get ⟨i, h⟩
          else startMovement (st.movements.get ⟨i, h⟩) st.grid) = st.movements.get ⟨i, h⟩ := by
        rw [hs]
        exact if_pos rfl
      rw [hm1, set_get_self st.movements i h]
      have hst : ({ st with movements := st.movements } : GameS) = st := rfl
      rw [hst, updateAttackMovement_absent st i _ (habsent _ hm)]
      exact ih (i + 1) st hstarted habsent
    · rw [dif_neg h]

/-- C10 counterexample: in `stC10` the movement's source (square 1) has
been removed from the live registry, yet one invocation of
`update_attack_movements` still captures the pixel at `(0, 1)` for the
dead id and deducts 100 resources from the live target square 2 —
because `get_square_from_id` reads `id_squares_map`, which
`kill_square` never prunes, so the killed square is still found. -/
theorem c10_dead_source_counterexample :
    ((1 : Int) ∉ stC10.alive) ∧
    stC10.grid = [[1, 2]] ∧ (updateAttackMovements stC10).grid = [[1, 1]] ∧
    (getSquareFromId stC10 2).map (fun s => s.resources) = some 100 ∧
    (getSquareFromId (updateAttackMovements stC10) 2).map (fun s => s.resources)
      = some 0 ∧
    ([[(1 : Int), 1]] ≠ [[(1 : Int), 2]]) ∧ (some (0 : Int) ≠ some (100 : Int)) := by
  refine ⟨by decide, rfl, by with_unfolding_all rfl,
    of_decide_eq_true (by with_unfolding_all rfl),
    of_decide_eq_true (by with_unfolding_all rfl), by decide, by decide⟩

/-- C10 amended: an attack movement is skipped (the world left unchanged
and the movement kept) exactly when its source id is absent from the
id-to-square map, not when the source was merely removed from the live
registry — `kill_square` never prunes the map, so a killed source is
still found and its movement keeps acting.  For a map-absent source,
processing the movement is the identity on the whole world state, and an
`update_attack_movements` invocation over started movements with
map-absent sources changes nothing (in particular every such movement
stays in the active list). -/
theorem c10_absent_source_is_noop (st : GameS) (i : Nat) (m : MovementR)
    (habs : getSquareFromId st m.source = none) :
    updateAttackMovement st i m = st ∧
    ((∀ m2 ∈ st.movements, m2.is_started = true) →
      (∀ m2 ∈ st.movements, getSquareFromId st m2.source = none) →
      updateAttackMovements st = st) :=
  ⟨updateAttackMovement_absent st i m habs,
    fun hstarted habsent => uamLoop_absent_noop st.movements.length 0 st hstarted habsent⟩


/-- C10 witness: with a map-absent source both parts of the amended
statement apply concretely. -/
theorem c10_absent_source_is_noop_witness :
    (getSquareFromId stC10W (7 : Int) = none) ∧
    updateAttackMovement stC10W 0 mvC10W = stC10W ∧
    updateAttackMovements stC10W = stC10W :=
  have habs : getSquareFromId stC10W mvC10W.source = none := by with_unfolding_all rfl
  ⟨habs,
    (c10_absent_source_is_noop stC10W 0 mvC10W habs).1,
    (c10_absent_source_is_noop stC10W 0 mvC10W habs).2
      (by decide) (fun m2 hm2 => by
        have hm2e : m2 = mvC10W := by
          simpa [stC10W, emptyGameS, mvC10W] using hm2
        rw [hm2e]
        exact habs)⟩

/-! ## C2: refund semantics of dropped movements and boats -/

theorem find_addResources (store : List SquareR) (id v : Int) :
    (addResources store id v).find? (fun s => s.id = id)
      = (store.find? (fun s => s.id = id)).map
          (fun s => { s with resources := s.resources + v }) := by
  induction store with
  | nil => rfl
  | cons s t ih =>
    by_cases hs : s.id = id
    · simp [addResources, updStoreSquare, List.find?_cons, hs]
    · simp only [addResources, updStoreSquare, List.map_cons, List.find?_cons, if_neg hs]
      have hds : (decide (s.id = id)) = false := decide_eq_false hs
      rw [hds]
      simpa [addResources, updStoreSquare] using ih

theorem updateAttackMovement_empty_refund (st : GameS) (i : Nat) (m : MovementR)
    (sq : SquareR) (hsq : getSquareFromId st m.source = some sq)
    (hempty : getNextPixels m st.grid = []) :
    getSquareFromId (updateAttackMovement st i m) m.source
      = some { sq with resources := sq.resources + m.investment } ∧
    (updateAttackMovement st i m).movements = st.movements.erase m ∧
    (updateAttackMovement st i m).grid = st.grid := by
  have hstep : updateAttackMovement st i m =
      { st with store := addResources st.store m.source m.investment,
                movements := st.movements.erase m } := by
    rw [updateAttackMovement, hsq]
    simp [hempty]
  rw [hstep]
  refine ⟨?_, rfl, rfl⟩
  show (addResources st.store m.source m.investment).find? (fun s => s.id = m.source) = _
  rw [find_addResources]
  rw [getSquareFromId] at hsq
  rw [hsq]
  rfl

theorem boatFromSquare_no_coastline (sq : SquareR) (inv : Int) (g : Grid)
    (ci : Nat) (so : Rat → Rat → Rat × Rat)
    (hco : findCoastline sq.id g = []) :
    boatFromSquare sq inv g ci so = ({ sq with resources := sq.resources - inv }, none) := by
  simp [boatFromSquare, hco]

theorem updateBoats_vertical_exit (st : GameS) (b : BoatR)
    (hb : st.boats = [b])
    (hv : b.pos.1 + b.speed.1 < 0 ∨ (st.height : Rat) ≤ b.pos.1 + b.speed.1) :
    updateBoats st = { st with boats := [] } := by
  obtain ⟨w, ht, g, store, alive, movs, boats, ma, trav, liv⟩ := st
  change boats = [b] at hb
  subst hb
  change (b.pos.1 + b.speed.1 < 0 ∨ ((ht : Nat) : Rat) ≤ b.pos.1 + b.speed.1) at hv
  show ubLoop 1 0 _ = _
  rw [ubLoop]
  simp only [List.length_cons, List.length_nil, Nat.zero_lt_succ, dif_pos,
    List.get_cons_zero, List.set_cons_zero]
  split_ifs <;>
    first
      | (simp [ubLoop, List.erase_cons_head]; done)
      | exact absurd hv (by assumption)

theorem updateBoats_home_refund (st : GameS) (b : BoatR)
    (hb : st.boats = [b])
    (hx0 : ¬ pyInt (b.pos.2 + b.speed.2) < 0)
    (hxW : ¬ (st.width : Int) ≤ pyInt (b.pos.2 + b.speed.2))
    (hy : ¬ (b.pos.1 + b.speed.1 < 0 ∨ (st.height : Rat) ≤ b.pos.1 + b.speed.1))
    (hsrc : b.source ≠ -1)
    (hcol : getCell st.grid (pyInt (b.pos.1 + b.speed.1), pyInt (b.pos.2 + b.speed.2))
      = b.source) :
    updateBoats st = { st with boats := [],
                               store := addResources st.store b.source b.investment } := by
  obtain ⟨w, ht, g, store, alive, movs, boats, ma, trav, liv⟩ := st
  change boats = [b] at hb
  subst hb
  change ¬ ((w : Int) ≤ pyInt (b.pos.2 + b.speed.2)) at hxW
  change ¬ (b.pos.1 + b.speed.1 < 0 ∨ ((ht : Nat) : Rat) ≤ b.pos.1 + b.speed.1) at hy
  change getCell g (pyInt (b.pos.1 + b.speed.1), pyInt (b.pos.2 + b.speed.2)) = b.source
    at hcol
  show ubLoop 1 0 _ = _
  rw [ubLoop]
  simp only [List.length_cons, List.length_nil, Nat.zero_lt_succ, dif_pos,
    List.get_eq_getElem, List.getElem_cons_zero, List.set_cons_zero]
  split_ifs <;>
    first
      | (simp [ubLoop, List.erase_cons_head]; done)
      | exact absurd (by assumption) hx0
      | exact absurd (by assumption) hxW
      | exact absurd (by assumption) hy
      | exact absurd hcol (by assumption)
      | exact absurd (hcol.symm.trans (by assumption)) hsrc

theorem updateBoats_right_edge_reset (st : GameS) (b : BoatR)
    (hb : st.boats = [b])
    (hx0 : ¬ pyInt (b.pos.2 + b.speed.2) < 0)
    (hxW : (st.width : Int) ≤ pyInt (b.pos.2 + b.speed.2))
    (hy : ¬ (b.pos.1 + b.speed.1 < 0 ∨ (st.height : Rat) ≤ b.pos.1 + b.speed.1))
    (hwater : getCell st.grid (pyInt (b.pos.1 + b.speed.1), pyInt (0 : Rat)) = -1) :
    updateBoats st = { st with boats := [{ b with pos := (b.pos.1 + b.speed.1, 0) }] } := by
  obtain ⟨w, ht, g, store, alive, movs, boats, ma, trav, liv⟩ := st
  change boats = [b] at hb
  subst hb
  change ((w : Int) ≤ pyInt (b.pos.2 + b.speed.2)) at hxW
  change ¬ (b.pos.1 + b.speed.1 < 0 ∨ ((ht : Nat) : Rat) ≤ b.pos.1 + b.speed.1) at hy
  change getCell g (pyInt (b.pos.1 + b.speed.1), pyInt (0 : Rat)) = -1 at hwater
  show ubLoop 1 0 _ = _
  rw [ubLoop]
  simp only [List.length_cons, List.length_nil, Nat.zero_lt_succ, dif_pos,
    List.get_eq_getElem, List.getElem_cons_zero, List.set_cons_zero]
  split_ifs <;>
    first
      | (simp [ubLoop, List.erase_cons_head]; done)
      | exact absurd (by assumption) hx0
      | exact absurd hxW (by assumption)
      | exact absurd (by assumption) hy
      | exact absurd hwater (by assumption)

theorem updateBoats_left_edge_reset (st : GameS) (b : BoatR)
    (hb : st.boats = [b])
    (hx0 : pyInt (b.pos.2 + b.speed.2) < 0)
    (hy : ¬ (b.pos.1 + b.speed.1 < 0 ∨ (st.height : Rat) ≤ b.pos.1 + b.speed.1))
    (hwater : getCell st.grid
      (pyInt (b.pos.1 + b.speed.1), pyInt ((st.width : Rat) - 1)) = -1) :
    updateBoats st =
      { st with boats := [{ b with pos := (b.pos.1 + b.speed.1, (st.width : Rat) - 1) }] } := by
  obtain ⟨w, ht, g, store, alive, movs, boats, ma, trav, liv⟩ := st
  change boats = [b] at hb
  subst hb
  change ¬ (b.pos.1 + b.speed.1 < 0 ∨ ((ht : Nat) : Rat) ≤ b.pos.1 + b.speed.1) at hy
  change getCell g
    (pyInt (b.pos.1 + b.speed.1), pyInt (((w : Nat) : Rat) - 1)) = -1 at hwater
  show ubLoop 1 0 _ = _
  rw [ubLoop]
  simp only [List.length_cons, List.length_nil, Nat.zero_lt_succ, dif_pos,
    List.get_eq_getElem, List.getElem_cons_zero, List.set_cons_zero]
  split_ifs <;>
    first
      | (simp [ubLoop, List.erase_cons_head]; done)
      | exact absurd hx0 (by assumption)
      | exact absurd (by assumption) hy
      | exact absurd hwater (by assumption)

/-- C2 counterexample: `Boat.from_square` deducts the investment before
looking for a coastline and returns `None` without restoring it, so an
actor with no coastline (grid `[[1]]`, no water at all) pays 100 and
gets nothing back: resources end at 900, while the claim requires the
refund to bring them back to 1000. -/
theorem c2_failed_spawn_not_refunded_counterexample :
    boatFromSquare { id := 1, resources := 1000 } 100 [[1]] 0 (fun _ _ => (0, 0))
      = ({ id := 1, resources := 900 }, none) ∧ (900 : Int) ≠ 1000 :=
  ⟨by with_unfolding_all rfl, by decide⟩

/-- C2 amended: the source actor is credited exactly the remaining
investment only when a movement is dropped for an empty frontier (alive
source) or a boat lands on its own territory; a failed boat spawn keeps
the already-deducted investment (no refund), and a boat leaving the
grid vertically is removed with every actor's resources unchanged. -/
theorem c2_refund_semantics :
    (∀ (st : GameS) (i : Nat) (m : MovementR) (sq : SquareR),
      getSquareFromId st m.source = some sq → getNextPixels m st.grid = [] →
      getSquareFromId (updateAttackMovement st i m) m.source
        = some { sq with resources := sq.resources + m.investment } ∧
      (updateAttackMovement st i m).movements = st.movements.erase m ∧
      (updateAttackMovement st i m).grid = st.grid) ∧
    (∀ (sq : SquareR) (inv : Int) (g : Grid) (ci : Nat) (so : Rat → Rat → Rat × Rat),
      findCoastline sq.id g = [] →
      boatFromSquare sq inv g ci so = ({ sq with resources := sq.resources - inv }, none)) ∧
    (∀ (st : GameS) (b : BoatR), st.boats = [b] →
      (b.pos.1 + b.speed.1 < 0 ∨ (st.height : Rat) ≤ b.pos.1 + b.speed.1) →
      updateBoats st = { st with boats := [] }) ∧
    (∀ (st : GameS) (b : BoatR), st.boats = [b] →
      ¬ pyInt (b.pos.2 + b.speed.2) < 0 →
      ¬ (st.width : Int) ≤ pyInt (b.pos.2 + b.speed.2) →
      ¬ (b.pos.1 + b.speed.1 < 0 ∨ (st.height : Rat) ≤ b.pos.1 + b.speed.1) →
      b.source ≠ -1 →
      getCell st.grid (pyInt (b.pos.1 + b.speed.1), pyInt (b.pos.2 + b.speed.2))
        = b.source →
      updateBoats st = { st with boats := [],
                                 store := addResources st.store b.source b.investment }) :=
  ⟨fun st i m sq h1 h2 => updateAttackMovement_empty_refund st i m sq h1 h2,
   fun sq inv g ci so h => boatFromSquare_no_coastline sq inv g ci so h,
   fun st b h1 h2 => updateBoats_vertical_exit st b h1 h2,
   fun st b h1 h2 h3 h4 h5 h6 => updateBoats_home_refund st b h1 h2 h3 h4 h5 h6⟩

/-- C2 witness: all four refund cases at concrete inputs. -/
theorem c2_refund_semantics_witness :
    getSquareFromId (updateAttackMovement stC2a 0 mvC2a) 1
      = some { id := 1, resources := 80 } ∧
    boatFromSquare { id := 1, resources := 1000 } 100 [[1]] 0 (fun _ _ => (0, 0))
      = ({ id := 1, resources := 900 }, none) ∧
    updateBoats stC2v = { stC2v with boats := [] } ∧
    updateBoats stC2h = { stC2h with boats := [],
                                     store := addResources stC2h.store 1 7 } := by
  refine ⟨?_, ?_, ?_, ?_⟩
  · exact ((c2_refund_semantics.1 stC2a 0 mvC2a { id := 1, resources := 50 }
      (by with_unfolding_all rfl)
      (by with_unfolding_all rfl)).1).trans
      (by with_unfolding_all rfl)
  · exact (c2_refund_semantics.2.1 { id := 1, resources := 1000 } 100 [[1]] 0
      (fun _ _ => (0, 0)) (by with_unfolding_all rfl)).trans
      (by with_unfolding_all rfl)
  · exact c2_refund_semantics.2.2.1 stC2v bC2v rfl
      (Or.inr (of_decide_eq_true (by with_unfolding_all rfl)))
  · exact c2_refund_semantics.2.2.2 stC2h bC2h rfl
      (of_decide_eq_true (by with_unfolding_all rfl))
      (of_decide_eq_true (by with_unfolding_all rfl))
      (of_decide_eq_true (by with_unfolding_all rfl))
      (by decide)
      (by with_unfolding_all rfl)

/-! ## C7: boat movement at the grid edges -/

/-- C7 counterexample: a boat at `x = 3.5` with speed `(0, 2)` in a
width-4 water world crosses the right edge; the claimed modulo rule
would put it at `x = 3.5 + 2 - 4 = 1.5`, but the code resets `x` to 0. -/
theorem c7_modulo_counterexample :
    (updateBoats stC7).boats.map (fun b => b.pos) = [(1 / 2, 0)] ∧
    ((0 : Rat) ≠ 7 / 2 + 2 - 4) :=
  ⟨by with_unfolding_all rfl, of_decide_eq_true (by with_unfolding_all rfl)⟩

/-- C7 amended: after `pos += speed`, a horizontal exit resets the
boat to the near edge rather than wrapping modulo the width — when
`int(x)` reaches the width the new `x` is exactly 0 (hence inside
`[0, 2)`), and when `int(x)` is negative the new `x` is exactly
`width - 1` — while a vertical exit removes the boat with the rest of
the world (including every actor's resources) unchanged. -/
theorem c7_boat_wrap_semantics :
    (∀ (st : GameS) (b : BoatR), st.boats = [b] →
      ¬ pyInt (b.pos.2 + b.speed.2) < 0 →
      (st.width : Int) ≤ pyInt (b.pos.2 + b.speed.2) →
      ¬ (b.pos.1 + b.speed.1 < 0 ∨ (st.height : Rat) ≤ b.pos.1 + b.speed.1) →
      getCell st.grid (pyInt (b.pos.1 + b.speed.1), pyInt (0 : Rat)) = -1 →
      updateBoats st
        = { st with boats := [{ b with pos := (b.pos.1 + b.speed.1, 0) }] }) ∧
    (∀ (st : GameS) (b : BoatR), st.boats = [b] →
      pyInt (b.pos.2 + b.speed.2) < 0 →
      ¬ (b.pos.1 + b.speed.1 < 0 ∨ (st.height : Rat) ≤ b.pos.1 + b.speed.1) →
      getCell st.grid
        (pyInt (b.pos.1 + b.speed.1), pyInt ((st.width : Rat) - 1)) = -1 →
      updateBoats st
        = { st with boats :=
              [{ b with pos := (b.pos.1 + b.speed.1, (st.width : Rat) - 1) }] }) ∧
    (∀ (st : GameS) (b : BoatR), st.boats = [b] →
      (b.pos.1 + b.speed.1 < 0 ∨ (st.height : Rat) ≤ b.pos.1 + b.speed.1) →
      updateBoats st = { st with boats := [] }) :=
  ⟨fun st b h1 h2 h3 h4 h5 => updateBoats_right_edge_reset st b h1 h2 h3 h4 h5,
   fun st b h1 h2 h3 h4 => updateBoats_left_edge_reset st b h1 h2 h3 h4,
   fun st b h1 h2 => updateBoats_vertical_exit st b h1 h2⟩

/-- C7 witness: right-edge reset to 0, left-edge reset to `width - 1`,
and a vertical exit, at concrete inputs. -/
theorem c7_boat_wrap_semantics_witness :
    updateBoats stC7 = { stC7 with boats :=
      [{ source := 1, investment := 100, pos := (1 / 2, 0), speed := (0, 2) }] } ∧
    updateBoats stC7l = { stC7l with boats :=
      [{ source := 1, investment := 3, pos := (1 / 2, 3), speed := (0, -2) }] } ∧
    updateBoats stC2v = { stC2v with boats := [] } := by
  refine ⟨?_, ?_, ?_⟩
  · exact (c7_boat_wrap_semantics.1 stC7 bC7r rfl
      (of_decide_eq_true (by with_unfolding_all rfl))
      (of_decide_eq_true (by with_unfolding_all rfl))
      (of_decide_eq_true (by with_unfolding_all rfl))
      (by with_unfolding_all rfl)).trans (by with_unfolding_all rfl)
  · exact (c7_boat_wrap_semantics.2.1 stC7l bC7l rfl
      (of_decide_eq_true (by with_unfolding_all rfl))
      (of_decide_eq_true (by with_unfolding_all rfl))
      (by with_unfolding_all rfl)).trans (by with_unfolding_all rfl)
  · exact c7_boat_wrap_semantics.2.2 stC2v bC2v rfl
      (Or.inr (of_decide_eq_true (by with_unfolding_all rfl)))

/-! ## C9: the neighbor pair set -/

theorem mem_vertAdjPairs (g2 : Grid) (y x : Nat) (a b : Int) (r1 r2 : List Int)
    (hy : g2.get? y = some r1) (hy1 : g2.get? (y + 1) = some r2)
    (hx1 : r1.get? x = some a) (hx2 : r2.get? x = some b) (hb : b ≠ 0) :
    (a, b) ∈ vertAdjPairs g2 := by
  have hylen : y < g2.length := by
    by_contra hlen
    rw [List.get?_eq_none.mpr (le_of_not_lt hlen)] at hy
    exact Option.noConfusion hy
  have hx1len : x < r1.length := by
    by_contra hlen
    rw [List.get?_eq_none.mpr (le_of_not_lt hlen)] at hx1
    exact Option.noConfusion hx1
  have hx2len : x < r2.length := by
    by_contra hlen
    rw [List.get?_eq_none.mpr (le_of_not_lt hlen)] at hx2
    exact Option.noConfusion hx2
  rw [vertAdjPairs]
  apply List.mem_flatMap.mpr
  refine ⟨y, List.mem_range.mpr hylen, ?_⟩
  rw [hy, hy1]
  apply List.mem_filterMap.mpr
  refine ⟨x, List.mem_range.mpr (lt_min hx1len hx2len), ?_⟩
  rw [hx1, hx2]
  exact if_pos hb

theorem mem_horizAdjPairs (g2 : Grid) (y x : Nat) (a b : Int) (r : List Int)
    (hy : g2.get? y = some r)
    (hx1 : r.get? x = some b) (hx2 : r.get? (x + 1) = some a) (hb : b ≠ 0) :
    (a, b) ∈ horizAdjPairs g2 := by
  have hylen : y < g2.length := by
    by_contra hlen
    rw [List.get?_eq_none.mpr (le_of_not_lt hlen)] at hy
    exact Option.noConfusion hy
  have hx1len : x < r.length := by
    by_contra hlen
    rw [List.get?_eq_none.mpr (le_of_not_lt hlen)] at hx1
    exact Option.noConfusion hx1
  rw [horizAdjPairs]
  apply List.mem_flatMap.mpr
  refine ⟨y, List.mem_range.mpr hylen, ?_⟩
  rw [hy]
  apply List.mem_filterMap.mpr
  refine ⟨x, List.mem_range.mpr hx1len, ?_⟩
  rw [hx1, hx2]
  exact if_pos hb

theorem mem_findAllPossibleTargets_of (g : Grid) (p : Int × Int)
    (hmem : p ∈ vertAdjPairs (strideSample 2 g) ∨ p ∈ horizAdjPairs (strideSample 2 g))
    (h1 : p.1 ≠ -2) (h2 : p.2 ≠ -2) :
    sortPair p ∈ findAllPossibleTargets g := by
  rw [findAllPossibleTargets]
  apply List.mem_filter.mpr
  constructor
  · apply List.mem_dedup.mpr
    apply List.mem_map_of_mem
    rcases hmem with hv | hh
    · exact List.mem_append_left _ hv
    · exact List.mem_append_right _ hh
  · rw [sortPair]
    split_ifs <;> simp [h1, h2]

/-- C9: `update_neighbors` never keeps a pair containing `-2` (the
final filter discards them), while any vertically or horizontally
adjacent pair of the stride-2 downsampled grid whose convolution
partner is nonzero and which contains no `-2` — in particular every
water pair, since `-1` is nonzero — appears (sorted) in the result. -/
theorem c9_neighbor_pairs :
    (∀ (g : Grid) (p : Int × Int), p ∈ findAllPossibleTargets g →
      p.1 ≠ -2 ∧ p.2 ≠ -2) ∧
    (∀ (g : Grid) (y x : Nat) (a b : Int) (r1 r2 : List Int),
      (strideSample 2 g).get? y = some r1 →
      (strideSample 2 g).get? (y + 1) = some r2 →
      r1.get? x = some a → r2.get? x = some b →
      b ≠ 0 → a ≠ -2 → b ≠ -2 →
      sortPair (a, b) ∈ findAllPossibleTargets g) ∧
    (∀ (g : Grid) (y x : Nat) (a b : Int) (r : List Int),
      (strideSample 2 g).get? y = some r →
      r.get? x = some b → r.get? (x + 1) = some a →
      b ≠ 0 → a ≠ -2 → b ≠ -2 →
      sortPair (a, b) ∈ findAllPossibleTargets g) := by
  refine ⟨?_, ?_, ?_⟩
  · intro g p hp
    rw [findAllPossibleTargets] at hp
    have := (List.mem_filter.mp hp).2
    simpa using this
  · intro g y x a b r1 r2 hy hy1 hx1 hx2 hb ha2 hb2
    exact mem_findAllPossibleTargets_of g (a, b)
      (Or.inl (mem_vertAdjPairs _ y x a b r1 r2 hy hy1 hx1 hx2 hb)) ha2 hb2
  · intro g y x a b r hy hx1 hx2 hb ha2 hb2
    exact mem_findAllPossibleTargets_of g (a, b)
      (Or.inr (mem_horizAdjPairs _ y x a b r hy hx1 hx2 hb)) ha2 hb2

/-- C9 witness: on the 3 by 3 grid whose stride-2 sample is
`[[1, -1], [-1, -2]]`, the water pair `(-1, 1)` appears in the result
and, being a member, contains no `-2`. -/
theorem c9_neighbor_pairs_witness :
    ((-1 : Int), (1 : Int)) ∈ findAllPossibleTargets
      [[1, 0, -1], [0, 0, 0], [-1, 0, -2]] ∧
    (((-1 : Int), (1 : Int)).1 ≠ -2 ∧ ((-1 : Int), (1 : Int)).2 ≠ -2) := by
  constructor
  · have h := (c9_neighbor_pairs.2.2) [[1, 0, -1], [0, 0, 0], [-1, 0, -2]] 0 0 (-1) 1
      [1, -1] (by decide) (by decide) (by decide) (by decide) (by decide) (by decide)
    have hsp : sortPair ((-1 : Int), (1 : Int)) = ((-1 : Int), (1 : Int)) := by decide
    rw [hsp] at h
    exact h
  · exact (c9_neighbor_pairs.1) [[1, 0, -1], [0, 0, 0], [-1, 0, -2]] ((-1 : Int), (1 : Int))
      (by decide)

/-! ## C1: permanence of water and mountain cells -/

theorem getD_set_ne {α : Type} (x d : α) :
    ∀ (l : List α) (i j : Nat), i ≠ j → (l.set i x).getD j d = l.getD j d := by
  intro l
  induction l with
  | nil => intro i j _; rfl
  | cons a t ih =>
    intro i j hij
    cases i with
    | zero =>
      cases j with
      | zero => exact absurd rfl hij
      | succ j2 => rfl
    | succ i2 =>
      cases j with
      | zero => rfl
      | succ j2 => exact ih i2 j2 (fun hh => hij (by rw [hh]))

theorem getD_set_self {α : Type} (x d : α) :
    ∀ (l : List α) (i : Nat),
      (l.set i x).getD i d = if i < l.length then x else d := by
  intro l
  induction l with
  | nil => intro i; simp
  | cons a t ih =>
    intro i
    cases i with
    | zero => simp
    | succ i2 =>
      have := ih i2
      simpa using this

theorem getD_eq_default {α : Type} (d : α) :
    ∀ (l : List α) (i : Nat), l.length ≤ i → l.getD i d = d := by
  intro l
  induction l with
  | nil => intro i _; rfl
  | cons a t ih =>
    intro i hi
    cases i with
    | zero => simp at hi
    | succ i2 => exact ih i2 (by simpa using hi)

theorem getCell_setCell_of_ne (g : Grid) (p q : Int × Int) (v : Int)
    (hne : getCell g p ≠ getCell g q) :
    getCell (setCell g p v) q = getCell g q := by
  by_cases hy : p.1.toNat = q.1.toNat
  · by_cases hx : p.2.toNat = q.2.toNat
    · exact absurd (by rw [getCell, getCell, hy, hx]) hne
    · rw [getCell, setCell, getCell, hy]
      by_cases hlen : q.1.toNat < g.length
      · rw [getD_set_self, if_pos hlen, getD_set_ne _ _ _ _ _ hx]
      · rw [getD_set_self, if_neg hlen,
          getD_eq_default _ _ _ (le_of_not_lt hlen)]
  · rw [getCell, setCell, getCell, getD_set_ne _ _ _ _ _ hy]

theorem getCell_setCell_cases (g : Grid) (p q : Int × Int) (v : Int) :
    getCell (setCell g p v) q = getCell g q ∨ getCell (setCell g p v) q = v := by
  by_cases hy : p.1.toNat = q.1.toNat
  · by_cases hx : p.2.toNat = q.2.toNat
    · by_cases hlen : q.1.toNat < g.length
      · by_cases hlen2 : q.2.toNat < (g.getD q.1.toNat []).length
        · refine Or.inr ?_
          rw [getCell, setCell, hy, hx]
          rw [getD_set_self, if_pos hlen]
          rw [getD_set_self, if_pos hlen2]
        · refine Or.inl ?_
          rw [getCell, setCell, getCell, hy, hx]
          rw [getD_set_self, if_pos hlen]
          rw [getD_set_self, if_neg hlen2,
            getD_eq_default _ _ _ (le_of_not_lt hlen2)]
      · refine Or.inl ?_
        rw [getCell, setCell, getCell, hy]
        rw [getD_set_self, if_neg hlen,
          getD_eq_default _ _ _ (le_of_not_lt hlen)]
    · refine Or.inl ?_
      rw [getCell, setCell, getCell, hy]
      by_cases hlen : q.1.toNat < g.length
      · rw [getD_set_self, if_pos hlen, getD_set_ne _ _ _ _ _ hx]
      · rw [getD_set_self, if_neg hlen,
          getD_eq_default _ _ _ (le_of_not_lt hlen)]
  · exact Or.inl (by rw [getCell, setCell, getCell, getD_set_ne _ _ _ _ _ hy])

theorem getD_map {α β : Type} (f : α → β) :
    ∀ (l : List α) (i : Nat) (d : α), (l.map f).getD i (f d) = f (l.getD i d) := by
  intro l
  induction l with
  | nil => intro i d; rfl
  | cons a t ih =>
    intro i d
    cases i with
    | zero => rfl
    | succ i2 => exact ih i2 d

theorem getD_map_eq {α β : Type} (f : α → β) (d1 : α) (d2 : β) (hd : f d1 = d2) :
    ∀ (l : List α) (i : Nat), (l.map f).getD i d2 = f (l.getD i d1) := by
  intro l
  induction l with
  | nil => intro i; simp [hd.symm]
  | cons a t ih =>
    intro i
    cases i with
    | zero => rfl
    | succ i2 => exact ih i2

theorem getCell_zeroOutId (g : Grid) (id : Int) (q : Int × Int) :
    getCell (zeroOutId g id) q
      = (if getCell g q = id then 0 else getCell g q) := by
  have hzero : (fun c : Int => if c = id then 0 else c) 0 = 0 := by
    by_cases h0 : (0 : Int) = id <;> simp [h0]
  rw [getCell, zeroOutId, getCell]
  rw [getD_map_eq (fun row : List Int => row.map (fun c => if c = id then 0 else c))
    [] [] rfl g q.1.toNat]
  rw [getD_map_eq (fun c : Int => if c = id then 0 else c) 0 0 hzero
    (g.getD q.1.toNat []) q.2.toNat]

theorem zeroOutId_water_pres (g : Grid) (id : Int) (q : Int × Int)
    (hid : id ≠ -1) (hq : getCell g q = -1) :
    getCell (zeroOutId g id) q = -1 := by
  rw [getCell_zeroOutId, hq, if_neg (fun hh => hid hh.symm)]

theorem setCells_water_pres (v : Int) (hv : v ≠ -1) :
    ∀ (ps : List (Int × Int)) (g : Grid) (q : Int × Int),
      (∀ p ∈ ps, getCell g p ≠ -1) → getCell g q = -1 →
      getCell (setCells g ps v) q = -1 := by
  intro ps
  induction ps with
  | nil => intro g q _ hq; exact hq
  | cons p t ih =>
    intro g q hall hq
    simp only [setCells, List.foldl_cons]
    have hpq : getCell g p ≠ getCell g q := by
      rw [hq]; exact hall p (List.mem_cons_self p t)
    have hq2 : getCell (setCell g p v) q = -1 := by
      rw [getCell_setCell_of_ne g p q v hpq]; exact hq
    have hall2 : ∀ p2 ∈ t, getCell (setCell g p v) p2 ≠ -1 := by
      intro p2 hp2
      rcases getCell_setCell_cases g p p2 v with hcase | hcase
      · rw [hcase]; exact hall p2 (List.mem_cons_of_mem p hp2)
      · rw [hcase]; exact hv
    exact ih (setCell g p v) q hall2 hq2

theorem stampRow_water_pres (id y : Int) :
    ∀ (xs : List Int) (g : Grid) (q : Int × Int), getCell g q = -1 →
      getCell (xs.foldl (fun acc2 x =>
        if getCell acc2 (y, x) ≠ -1 then setCell acc2 (y, x) id else acc2) g) q = -1 := by
  intro xs
  induction xs with
  | nil => intro g q hq; exact hq
  | cons x t ih =>
    intro g q hq
    simp only [List.foldl_cons]
    apply ih
    by_cases hp : getCell g (y, x) ≠ -1
    · rw [if_pos hp, getCell_setCell_of_ne g (y, x) q id (by rw [hq]; exact hp)]
      exact hq
    · rw [if_neg hp]; exact hq

theorem createRandomSquareStamp_water_pres (g : Grid) (id sy sx : Int)
    (q : Int × Int) (hq : getCell g q = -1) :
    getCell (createRandomSquareStamp g id sy sx) q = -1 := by
  rw [createRandomSquareStamp]
  generalize intRange (max 0 (sy - 5)) (min (gridH g : Int) (sy + 4)) = ys
  generalize intRange (max 0 (sx - 5)) (min (gridW g : Int) (sx + 4)) = xs
  induction ys generalizing g with
  | nil => exact hq
  | cons y t ih =>
    simp only [List.foldl_cons]
    exact ih _ (stampRow_water_pres id y xs g q hq)

theorem getNextPixels_mem_target (m : MovementR) (g : Grid) (p : Int × Int)
    (hp : p ∈ getNextPixels m g) : getCell g p = m.target := by
  simp only [getNextPixels] at hp
  exact of_decide_eq_true (List.mem_filter.mp hp).2

theorem getSquareFromId_id (st : GameS) (id : Int) (sq : SquareR)
    (h : getSquareFromId st id = some sq) : sq.id = id := by
  rw [getSquareFromId] at h
  have h2 := List.find?_some h
  simp only [decide_eq_true_eq] at h2
  exact h2

theorem updateAttackMovement_water_pres (st : GameS) (i : Nat) (m : MovementR)
    (hsrc : m.source ≠ -1) (htar : m.target ≠ -1) (q : Int × Int)
    (hq : getCell st.grid q = -1) :
    getCell (updateAttackMovement st i m).grid q = -1 := by
  cases hfind : getSquareFromId st m.source with
  | none => simpa [updateAttackMovement, hfind] using hq
  | some sq =>
    have hid : sq.id = m.source := getSquareFromId_id st m.source sq hfind
    have hcap : getCell (capturePixels st.grid (getNextPixels m st.grid) sq.id) q = -1 := by
      apply setCells_water_pres sq.id (by rw [hid]; exact hsrc)
      · intro p hp
        rw [getNextPixels_mem_target m st.grid p hp]
        exact htar
      · exact hq
    by_cases hempty : (getNextPixels m st.grid).isEmpty
    · simpa [updateAttackMovement, hfind, hempty] using hq
    · by_cases hinv : ({ m with
          border_pixels := getNextPixels m st.grid,
          investment := m.investment - (getNextPixelsCosts
            { m with border_pixels := getNextPixels m st.grid }
            (getNextPixels m st.grid) (getSquareFromId st m.target) st.trav).1 }
          : MovementR).investment ≤ 0
      · simpa [updateAttackMovement, hfind, hempty, hinv] using hcap
      · simpa [updateAttackMovement, hfind, hempty, hinv] using hcap

theorem startMovement_source (m : MovementR) (g : Grid) :
    (startMovement m g).source = m.source := rfl

theorem startMovement_target (m : MovementR) (g : Grid) :
    (startMovement m g).target = m.target := rfl

theorem updateAttackMovement_movements_inv (st : GameS) (i : Nat) (m : MovementR)
    (hm : m.source ≠ -1 ∧ m.target ≠ -1)
    (hinv : ∀ m2 ∈ st.movements, m2.source ≠ -1 ∧ m2.target ≠ -1) :
    ∀ m2 ∈ (updateAttackMovement st i m).movements,
      m2.source ≠ -1 ∧ m2.target ≠ -1 := by
  intro m2 hm2
  cases hfind : getSquareFromId st m.source with
  | none =>
    rw [updateAttackMovement, hfind] at hm2
    exact hinv m2 hm2
  | some sq =>
    by_cases hempty : (getNextPixels m st.grid).isEmpty
    · simp only [updateAttackMovement, hfind, hempty, if_true] at hm2
      exact hinv m2 (List.mem_of_mem_erase hm2)
    · have hset : ∀ m3 : MovementR,
          m2 ∈ st.movements.set i m3 → m3.source = m.source → m3.target = m.target →
          m2.source ≠ -1 ∧ m2.target ≠ -1 := by
        intro m3 hmem hs ht
        rcases List.mem_or_eq_of_mem_set hmem with hold | hnew
        · exact hinv m2 hold
        · rw [hnew, hs, ht]; exact hm
      simp only [updateAttackMovement, hfind, hempty, if_false, Bool.false_eq_true] at hm2
      split at hm2
      · exact hset _ (List.mem_of_mem_erase hm2) rfl rfl
      · exact hset _ hm2 rfl rfl

theorem uamLoop_water_pres :
    ∀ fuel i (st : GameS),
      (∀ m ∈ st.movements, m.source ≠ -1 ∧ m.target ≠ -1) →
      (∀ q, getCell st.grid q = -1 → getCell (uamLoop fuel i st).grid q = -1) ∧
      (∀ m ∈ (uamLoop fuel i st).movements, m.source ≠ -1 ∧ m.target ≠ -1) := by
  intro fuel
  induction fuel with
  | zero => intro i st hinv; exact ⟨fun q hq => hq, hinv⟩
  | succ f ih =>
    intro i st hinv
    rw [uamLoop_succ]
    by_cases h : i < st.movements.length
    · rw [dif_pos h]
      have hm : st.movements.get ⟨i, h⟩ ∈ st.movements := List.get_mem _ _ h
      have hm0 := hinv _ hm
      have hm1 : (if (st.movements.get ⟨i, h⟩).is_started then st.movements.get ⟨i, h⟩
          else startMovement (st.movements.get ⟨i, h⟩) st.grid).source ≠ -1 ∧
          (if (st.movements.get ⟨i, h⟩).is_started then st.movements.get ⟨i, h⟩
          else startMovement (st.movements.get ⟨i, h⟩) st.grid).target ≠ -1 := by
        by_cases hs : (st.movements.get ⟨i, h⟩).is_started
        · rw [if_pos hs]; exact hm0
        · rw [if_neg hs, startMovement_source, startMovement_target]; exact hm0
      have hinv1 : ∀ m2 ∈ st.movements.set i
          (if (st.movements.get ⟨i, h⟩).is_started then st.movements.get ⟨i, h⟩
           else startMovement (st.movements.get ⟨i, h⟩) st.grid),
          m2.source ≠ -1 ∧ m2.target ≠ -1 := by
        intro m2 hm2
        rcases List.mem_or_eq_of_mem_set hm2 with hold | hnew
        · exact hinv m2 hold
        · rw [hnew]; exact hm1
      have hinv2 := updateAttackMovement_movements_inv { st with movements := st.movements.set i (if (st.movements.get ⟨i, h⟩).is_started then st.movements.get ⟨i, h⟩ else startMovement (st.movements.get ⟨i, h⟩) st.grid) } i _ hm1 hinv1
      rcases ih (i + 1) _ hinv2 with ⟨ihg, ihm⟩
      refine ⟨?_, ihm⟩
      intro q hq
      apply ihg
      exact updateAttackMovement_water_pres _ i _ hm1.1 hm1.2 q hq
    · rw [dif_neg h]; exact ⟨fun q hq => hq, hinv⟩

theorem usaLoop_water_pres (counts : Int → Nat) :
    ∀ fuel i (st : GameS), (∀ id ∈ st.alive, id ≠ -1) →
      ∀ q, getCell st.grid q = -1 →
        getCell (usaLoop counts fuel i st).grid q = -1 := by
  intro fuel
  induction fuel with
  | zero => intro i st _ q hq; exact hq
  | succ f ih =>
    intro i st hids q hq
    rw [usaLoop_succ]
    by_cases h : i < st.alive.length
    · rw [dif_pos h]
      have hid : st.alive.get ⟨i, h⟩ ≠ -1 := hids _ (List.get_mem _ _ h)
      have hkill : ∀ st2 : GameS, st2.grid = st.grid → st2.alive = st.alive →
          getCell (killSquare st2 (st.alive.get ⟨i, h⟩)).grid q = -1 ∧
          (∀ id2 ∈ (killSquare st2 (st.alive.get ⟨i, h⟩)).alive, id2 ≠ -1) := by
        intro st2 hg ha
        constructor
        · show getCell (zeroOutId st2.grid _) q = -1
          rw [hg]
          exact zeroOutId_water_pres st.grid _ q hid hq
        · intro id2 hid2
          rw [killSquare_alive, ha] at hid2
          exact hids id2 (List.mem_of_mem_erase hid2)
      by_cases h0 : counts (st.alive.get ⟨i, h⟩) = 0
      · rw [if_pos h0]
        rcases hkill st rfl rfl with ⟨hg2, hi2⟩
        exact ih (i + 1) _ hi2 q hg2
      · rw [if_neg h0]
        by_cases hc : ((counts (st.alive.get ⟨i, h⟩) : Int) < 10 ∨
            ((counts (st.alive.get ⟨i, h⟩) : Rat) <
              ((max st.max_area (counts (st.alive.get ⟨i, h⟩) : Int) : Int) : Rat) / 100))
        · rw [if_pos hc]
          rcases hkill { st with max_area := max st.max_area (counts (st.alive.get ⟨i, h⟩) : Int) } rfl rfl with ⟨hg2, hi2⟩
          exact ih (i + 1) _ hi2 q hg2
        · rw [if_neg hc]
          exact ih (i + 1) (setSquareStats { st with max_area := max st.max_area (counts (st.alive.get ⟨i, h⟩) : Int) } (st.alive.get ⟨i, h⟩) (counts (st.alive.get ⟨i, h⟩))) hids q hq
    · rw [dif_neg h]; exact hq

theorem ubLoop_grid_invariant :
    ∀ fuel i (st : GameS), (ubLoop fuel i st).grid = st.grid := by
  intro fuel
  induction fuel with
  | zero => intro i st; rfl
  | succ f ih =>
    intro i st
    rw [ubLoop]
    by_cases h : i < st.boats.length
    · rw [dif_pos h]
      dsimp only
      split_ifs <;> exact ih (i + 1) _
    · rw [dif_neg h]

theorem handleMC_inv (nm : MovementR) (hnm : nm.source ≠ -1 ∧ nm.target ≠ -1) :
    ∀ (ms : List MovementR), (∀ m ∈ ms, m.source ≠ -1 ∧ m.target ≠ -1) →
      ∀ m2 ∈ handleMovementCollisions ms nm,
        m2.source ≠ -1 ∧ m2.target ≠ -1 := by
  intro ms
  induction ms with
  | nil =>
    intro _ m2 hm2
    rw [handleMovementCollisions] at hm2
    rw [List.mem_singleton.mp hm2]
    exact hnm
  | cons m rest ih =>
    intro hall m2 hm2
    rw [handleMovementCollisions] at hm2
    by_cases hA : m.source = nm.source ∧ m.target = nm.target
    · rw [if_pos hA] at hm2
      rcases List.mem_cons.mp hm2 with heq | hold
      · rw [heq]; exact hall m (List.mem_cons_self _ _)
      · exact hall _ (List.mem_cons_of_mem _ hold)
    · rw [if_neg hA] at hm2
      by_cases hB : m.source = nm.target ∧ m.target = nm.source
      · rw [if_pos hB] at hm2
        dsimp only at hm2
        have hbase : ∀ x ∈ (if ({ m with investment := m.investment - min nm.investment m.investment } : MovementR).investment ≤ 0 then rest else { m with investment := m.investment - min nm.investment m.investment } :: rest), x.source ≠ -1 ∧ x.target ≠ -1 := by
          intro x hx
          split at hx
          · exact hall _ (List.mem_cons_of_mem _ hx)
          · rcases List.mem_cons.mp hx with heq | hold
            · rw [heq]; exact hall m (List.mem_cons_self _ _)
            · exact hall _ (List.mem_cons_of_mem _ hold)
        split at hm2
        · rcases List.mem_append.mp hm2 with hx | hx
          · exact hbase _ hx
          · rw [List.mem_singleton.mp hx]
            exact hnm
        · exact hbase _ hm2
      · rw [if_neg hB] at hm2
        rcases List.mem_cons.mp hm2 with heq | hold
        · rw [heq]; exact hall m (List.mem_cons_self _ _)
        · exact ih (fun x hx => hall x (List.mem_cons_of_mem _ hx)) m2 hold

theorem ubLoop_movements_inv :
    ∀ fuel i (st : GameS),
      (∀ m ∈ st.movements, m.source ≠ -1 ∧ m.target ≠ -1) →
      (∀ b ∈ st.boats, b.source ≠ -1) →
      ∀ m ∈ (ubLoop fuel i st).movements, m.source ≠ -1 ∧ m.target ≠ -1 := by
  intro fuel
  induction fuel with
  | zero => intro i st hmov _ m hm; exact hmov m hm
  | succ f ih =>
    intro i st hmov hboat
    rw [ubLoop]
    by_cases h : i < st.boats.length
    · rw [dif_pos h]
      dsimp only
      have hbsrc : (st.boats.get ⟨i, h⟩).source ≠ -1 := hboat _ (List.get_mem _ _ h)
      have hboats1 : ∀ (b3 b2 : BoatR), b3 ∈ st.boats.set i b2 →
          b2.source = (st.boats.get ⟨i, h⟩).source → b3.source ≠ -1 := by
        intro b3 b2 hb3 hb2
        rcases List.mem_or_eq_of_mem_set hb3 with hold | hnew
        · exact hboat _ hold
        · rw [hnew, hb2]; exact hbsrc
      have hboatsE : ∀ (b3 b2 : BoatR), b3 ∈ (st.boats.set i b2).erase b2 →
          b2.source = (st.boats.get ⟨i, h⟩).source → b3.source ≠ -1 := by
        intro b3 b2 hb3 hb2
        exact hboats1 b3 b2 (List.mem_of_mem_erase hb3) hb2
      split_ifs
      all_goals first
        | exact ih (i + 1) _ hmov (fun b3 hb3 => hboatsE b3 _ hb3 rfl)
        | exact ih (i + 1) _ hmov (fun b3 hb3 => hboats1 b3 _ hb3 rfl)
        | (refine ih (i + 1) _ ?_ (fun b3 hb3 => hboatsE b3 _ hb3 rfl)
           exact handleMC_inv _ ⟨hbsrc, fun heq => absurd heq (by assumption)⟩ _ hmov)
    · rw [dif_neg h]
      exact fun m hm => hmov m hm

/-! ## C1: permanence of terrain cells -/

/-- C1 counterexample: the claim fails for mountains. The spawn stamp of
`Game.create_random_square` skips only cells whose label is `-1`, so a
mountain cell (`-2`) inside the spawn block is overwritten with the new
actor id: on the one-cell mountain grid `[[-2]]`, spawning actor 7 at
`(0, 0)` relabels the mountain cell to 7. -/
theorem c1_mountain_overwritten_counterexample :
    getCell [[-2]] (0, 0) = -2 ∧
    getCell (createRandomSquareStamp [[-2]] 7 0 0) (0, 0) = 7 ∧
    ((7 : Int) ≠ -2) := by decide

/-- C1 amended: water cells (`-1`) are never relabeled, by any of the
operations the claim names.  The spawn stamp preserves every water cell;
the attack-movement loop preserves them whenever every movement in
flight has non-water source and target (frontier cells are cells of the
target); the boat loop never writes the grid at all; the elimination and
area loop preserves them whenever the live registry holds no water label
(it holds actor ids).  Moreover the boat loop only creates movements
with non-water source and target, so the attack-loop hypothesis is
maintained from tick to tick.  Mountain cells are not permanent: the
spawn stamp overwrites them (see the counterexample). -/
theorem c1_water_permanence :
    (∀ (g : Grid) (id sy sx : Int) (q : Int × Int),
        getCell g q = -1 → getCell (createRandomSquareStamp g id sy sx) q = -1) ∧
    (∀ st : GameS, (∀ m ∈ st.movements, m.source ≠ -1 ∧ m.target ≠ -1) →
        ∀ q : Int × Int, getCell st.grid q = -1 →
          getCell (updateAttackMovements st).grid q = -1) ∧
    (∀ st : GameS, (updateBoats st).grid = st.grid) ∧
    (∀ st : GameS, (∀ id ∈ st.alive, id ≠ -1) →
        ∀ q : Int × Int, getCell st.grid q = -1 →
          getCell (updateSquareAreas st).grid q = -1) ∧
    (∀ st : GameS, (∀ m ∈ st.movements, m.source ≠ -1 ∧ m.target ≠ -1) →
        (∀ b ∈ st.boats, b.source ≠ -1) →
        ∀ m ∈ (updateBoats st).movements, m.source ≠ -1 ∧ m.target ≠ -1) := by
  refine ⟨?_, ?_, ?_, ?_, ?_⟩
  · exact fun g id sy sx q hq => createRandomSquareStamp_water_pres g id sy sx q hq
  · exact fun st hm q hq => (uamLoop_water_pres st.movements.length 0 st hm).1 q hq
  · exact fun st => ubLoop_grid_invariant st.boats.length 0 st
  · exact fun st hids q hq => usaLoop_water_pres _ st.alive.length 0 st hids q hq
  · exact fun st hm hb => ubLoop_movements_inv st.boats.length 0 st hm hb

/-- Witness for the amended C1 theorem on concrete inputs: the water
cell of `[[1, -1]]` survives the spawn stamp, the water cell of the
`stC1` scenario survives the attack loop and the area loop, the boat
loop leaves the grid of `stC1` unchanged, and the one movement of the
scenario keeps non-water endpoints after the boat loop. -/
theorem c1_water_permanence_witness :
    getCell (createRandomSquareStamp [[1, -1]] 5 0 0) (0, 1) = -1 ∧
    getCell (updateAttackMovements stC1).grid (0, 2) = -1 ∧
    (updateBoats stC1).grid = stC1.grid ∧
    getCell (updateSquareAreas stC1).grid (0, 2) = -1 ∧
    (mvC1.source ≠ -1 ∧ mvC1.target ≠ -1) :=
  ⟨c1_water_permanence.1 [[1, -1]] 5 0 0 (0, 1) (by decide),
   c1_water_permanence.2.1 stC1 (by decide) (0, 2) (by decide),
   c1_water_permanence.2.2.1 stC1,
   c1_water_permanence.2.2.2.1 stC1 (by decide) (0, 2) (by decide),
   c1_water_permanence.2.2.2.2 stC1 (by decide) (by decide) mvC1
     (List.mem_singleton.mpr rfl)⟩
